import Mathlib

/-! # Battle City simulation core: shallow embedding of `src/main.cpp`

The C++ program is a single translation unit with four classes (`Bullet`, `Wall`,
`PlayerTank`, `Game`).  Every method that touches simulation state is embedded below as a
pure Lean function on explicit state records; rendering and window management do not touch
simulation state and are left out.

Conventions.

* C++ `int` values are mathematical integers (`Int`).  Signed overflow is undefined behaviour
  in C++, so the program has no defined result there; every position the game reaches stays
  within a few hundred pixels of the 800x600 screen.
* `std::vector<T>` is `List T`, `push_back` appends at the end.
* The constructor of class `C` is `C.new`.
* `SDL_HasIntersection` belongs to the SDL library, not to the repository.  Every operation
  that calls it takes the primitive as the parameter `hit`, so the general theorems hold for
  any rectangle-intersection primitive.
-/

namespace BattleCity

/-! ## Constants (`main.cpp` lines 9-13) -/

@[reducible] def SCREEN_WIDTH : Int := 800
@[reducible] def SCREEN_HEIGHT : Int := 600
@[reducible] def TILE_SIZE : Int := 40
/-- C++ integer division truncates toward zero. -/
@[reducible] def MAP_WIDTH : Int := Int.tdiv SCREEN_WIDTH TILE_SIZE
@[reducible] def MAP_HEIGHT : Int := Int.tdiv SCREEN_HEIGHT TILE_SIZE

/-! ## Data model -/

/-- The SDL rectangle record: top-left corner, width, height. -/
structure SDL_Rect where
  x : Int
  y : Int
  w : Int
  h : Int
deriving DecidableEq, Repr

/-- Fields of `class Bullet` (lines 17-20). -/
structure Bullet where
  x : Int
  y : Int
  dx : Int
  dy : Int
  rect : SDL_Rect
  active : Bool
deriving DecidableEq, Repr

/-- Fields of `class Wall` (lines 51-53). -/
structure Wall where
  x : Int
  y : Int
  rect : SDL_Rect
  active : Bool
deriving DecidableEq, Repr

/-- Fields of `class PlayerTank` (lines 72-75). -/
structure PlayerTank where
  x : Int
  y : Int
  dirX : Int
  dirY : Int
  rect : SDL_Rect
  bullets : List Bullet
deriving DecidableEq, Repr

/-- Simulation fields of `class Game` (lines 130-132); the window and renderer handles are
presentation state and are not modelled. -/
structure Game where
  running : Bool
  walls : List Wall
  player : PlayerTank
deriving DecidableEq, Repr

/-- The type of the rectangle-intersection primitive the program calls. -/
abbrev Intersect := SDL_Rect → SDL_Rect → Bool

/-! ## Constructors -/

/-- The constructor `Bullet::Bullet(staX, staY, dirX, dirY)` (lines 22-29). -/
def Bullet.new (staX staY dirX dirY : Int) : Bullet :=
  { x := staX, y := staY, dx := dirX * 10, dy := dirY * 10, active := true,
    rect := ⟨staX, staY, 10, 10⟩ }

/-- The constructor `Wall::Wall(startX, startY)` (lines 55-60). -/
def Wall.new (startX startY : Int) : Wall :=
  { x := startX, y := startY, active := true, rect := ⟨startX, startY, TILE_SIZE, TILE_SIZE⟩ }

/-- The constructor `PlayerTank::PlayerTank(startX, startY)` (lines 77-83). -/
def PlayerTank.new (startX startY : Int) : PlayerTank :=
  { x := startX, y := startY, rect := ⟨startX, startY, TILE_SIZE, TILE_SIZE⟩,
    dirX := 0, dirY := -1, bullets := [] }

/-! ## Wall generation (lines 153-159) -/

/-- The inner loop `for (j = ...; j < MAP_WIDTH - 3; j += 2) walls.push_back(Wall(...))`
of `generateWalls`, entered with the column counter at `j`. -/
def Game.generateWallsCols (i j : Int) (walls : List Wall) : List Wall :=
  if j < MAP_WIDTH - 3 then
    Game.generateWallsCols i (j + 2) (walls ++ [Wall.new (j * TILE_SIZE) (i * TILE_SIZE)])
  else walls
termination_by (MAP_WIDTH - 3 - j).toNat
decreasing_by omega

/-- The outer loop `for (i = ...; i < MAP_HEIGHT - 3; i += 2)` of `generateWalls`, entered
with the row counter at `i`; each pass runs the inner loop from column 3. -/
def Game.generateWallsRows (i : Int) (walls : List Wall) : List Wall :=
  if i < MAP_HEIGHT - 3 then
    Game.generateWallsRows (i + 2) (Game.generateWallsCols i 3 walls)
  else walls
termination_by (MAP_HEIGHT - 3 - i).toNat
decreasing_by omega

/-- The method `Game::generateWalls()`: both loops start at index 3 and push onto the
wall store of the game. -/
def Game.generateWalls (g : Game) : Game :=
  { g with walls := Game.generateWallsRows 3 g.walls }

/-- The constructor `Game::Game()` (lines 134-151).  The three flags say whether
`SDL_Init`, `SDL_CreateWindow` and `SDL_CreateRenderer` succeeded; a failure only clears
`running`. -/
def Game.new (sdlInitOk windowOk rendererOk : Bool) : Game :=
  Game.generateWalls
    { running := sdlInitOk && windowOk && rendererOk,
      walls := [],
      player := PlayerTank.new (Int.tdiv (MAP_WIDTH - 1) 2 * TILE_SIZE)
                  ((MAP_HEIGHT - 2) * TILE_SIZE) }

/-! ## Projectiles (lines 30-39) -/

/-- The method `Bullet::move()`: add the velocity to the position, copy the position into
the box, and clear `active` when the position is outside `[40, 760] x [40, 560]`. -/
def Bullet.move (b : Bullet) : Bullet :=
  let x := b.x + b.dx
  let y := b.y + b.dy
  let b1 : Bullet := { b with x := x, y := y, rect := { b.rect with x := x, y := y } }
  if x < TILE_SIZE ∨ x > SCREEN_WIDTH - TILE_SIZE ∨
      y < TILE_SIZE ∨ y > SCREEN_HEIGHT - TILE_SIZE then
    { b1 with active := false }
  else b1

/-! ## The tank (lines 93-123) -/

/-- The loop of lines 100-104 in `PlayerTank::move`: `true` when some iteration executes
`return`, that is, when a wall that is active intersects `newRect`. -/
def PlayerTank.moveBlocked (hit : Intersect) (newRect : SDL_Rect) : List Wall → Bool
  | [] => false
  | wall :: rest =>
    if wall.active && hit newRect wall.rect then true
    else PlayerTank.moveBlocked hit newRect rest

/-- The method `PlayerTank::move(dx, dy, walls)`.  The direction is stored first; the early
`return` of the wall loop and a failed bounds test both leave position and box as they were. -/
def PlayerTank.move (hit : Intersect) (t : PlayerTank) (dx dy : Int) (walls : List Wall) :
    PlayerTank :=
  let newX := t.x + dx
  let newY := t.y + dy
  let t1 : PlayerTank := { t with dirX := dx, dirY := dy }
  let newRect : SDL_Rect := ⟨newX, newY, TILE_SIZE, TILE_SIZE⟩
  if PlayerTank.moveBlocked hit newRect walls then t1
  else if newX ≥ TILE_SIZE ∧ newX ≤ SCREEN_WIDTH - TILE_SIZE * 2 ∧
      newY ≥ TILE_SIZE ∧ newY ≤ SCREEN_HEIGHT - TILE_SIZE * 2 then
    { t1 with x := newX, y := newY, rect := { t1.rect with x := newX, y := newY } }
  else t1

/-- The method `PlayerTank::shoot()`. -/
def PlayerTank.shoot (t : PlayerTank) : PlayerTank :=
  if t.dirX = 0 ∧ t.dirY = 0 then t
  else
    { t with bullets := t.bullets ++
        [Bullet.new (t.x + Int.tdiv TILE_SIZE 2 - 5) (t.y + Int.tdiv TILE_SIZE 2 - 5)
          t.dirX t.dirY] }

/-- The loop `for (auto &bullet : bullets) bullet.move();` of `updateBullets`. -/
def PlayerTank.moveEach : List Bullet → List Bullet
  | [] => []
  | bullet :: rest => bullet.move :: PlayerTank.moveEach rest

/-- The statement `bullets.erase(remove_if(begin, end, pred), end)`: one pass from the
front that drops each element satisfying `pred` and keeps the others where they stand. -/
def PlayerTank.eraseRemoveIf (pred : Bullet → Bool) : List Bullet → List Bullet
  | [] => []
  | bullet :: rest =>
    if pred bullet then PlayerTank.eraseRemoveIf pred rest
    else bullet :: PlayerTank.eraseRemoveIf pred rest

/-- The method `PlayerTank::updateBullets()`. -/
def PlayerTank.updateBullets (t : PlayerTank) : PlayerTank :=
  { t with bullets :=
      PlayerTank.eraseRemoveIf (fun b => !b.active) (PlayerTank.moveEach t.bullets) }

/-! ## Input dispatch (lines 182-197) -/

/-- The key codes `handleEvents` distinguishes; every other key is `other`. -/
inductive SDL_Keycode where
  | SDLK_UP
  | SDLK_DOWN
  | SDLK_LEFT
  | SDLK_RIGHT
  | SDLK_SPACE
  | other
deriving DecidableEq, Repr

/-- The events `handleEvents` distinguishes; every other event type is `other`. -/
inductive SDL_Event where
  | SDL_QUIT
  | SDL_KEYDOWN (sym : SDL_Keycode)
  | other
deriving DecidableEq, Repr

/-- The body of the `while (SDL_PollEvent(&event))` loop, for one polled event. -/
def Game.handleEvent (hit : Intersect) (g : Game) : SDL_Event → Game
  | .SDL_QUIT => { g with running := false }
  | .SDL_KEYDOWN .SDLK_UP => { g with player := g.player.move hit 0 (-5) g.walls }
  | .SDL_KEYDOWN .SDLK_DOWN => { g with player := g.player.move hit 0 5 g.walls }
  | .SDL_KEYDOWN .SDLK_LEFT => { g with player := g.player.move hit (-5) 0 g.walls }
  | .SDL_KEYDOWN .SDLK_RIGHT => { g with player := g.player.move hit 5 0 g.walls }
  | .SDL_KEYDOWN .SDLK_SPACE => { g with player := g.player.shoot }
  | .SDL_KEYDOWN .other => g
  | .other => g

/-- The method `Game::handleEvents()`, given the events the backend has queued, in the
order `SDL_PollEvent` delivers them. -/
def Game.handleEvents (hit : Intersect) (g : Game) : List SDL_Event → Game
  | [] => g
  | event :: rest => Game.handleEvents hit (Game.handleEvent hit g event) rest

/-! ## Simulation step (lines 199-210) -/

/-- The inner loop of `Game::update` for one bullet: scan the walls in storage order; at
the first wall that is active and intersects the bullet, clear both flags and `break`. -/
def Game.hitScan (hit : Intersect) (bullet : Bullet) : List Wall → List Wall × Bullet
  | [] => ([], bullet)
  | wall :: rest =>
    if wall.active && hit bullet.rect wall.rect then
      ({ wall with active := false } :: rest, { bullet with active := false })
    else
      ((wall :: (Game.hitScan hit bullet rest).1), (Game.hitScan hit bullet rest).2)

/-- The outer loop of `Game::update`: the bullets in collection order, each scanned
against the walls as the earlier bullets left them. -/
def Game.collide (hit : Intersect) : List Bullet → List Wall → List Bullet × List Wall
  | [], walls => ([], walls)
  | bullet :: rest, walls =>
    let r := Game.hitScan hit bullet walls
    let rs := Game.collide hit rest r.1
    (r.2 :: rs.1, rs.2)

/-- The method `Game::update()`: `player.updateBullets()`, then the collision loops. -/
def Game.update (hit : Intersect) (g : Game) : Game :=
  let p := g.player.updateBullets
  let r := Game.collide hit p.bullets g.walls
  { g with player := { p with bullets := r.1 }, walls := r.2 }

/-- One pass of the body of `while (running)` in `Game::run()`: `handleEvents()` on the
queued events, then `update()`; `render()` and `SDL_Delay` leave the state alone. -/
def Game.runIteration (hit : Intersect) (g : Game) (events : List SDL_Event) : Game :=
  Game.update hit (Game.handleEvents hit g events)

/-- The states of the game: the constructed game, and from any such state the state after
one more polled event or after one more `update()`.  The loop of `run` only alternates
polled events and `update()` calls, so every state the program is in is of this form. -/
inductive Reachable (hit : Intersect) : Game → Prop where
  | init (sdlInitOk windowOk rendererOk : Bool) :
      Reachable hit (Game.new sdlInitOk windowOk rendererOk)
  | event (g : Game) (e : SDL_Event) : Reachable hit g → Reachable hit (Game.handleEvent hit g e)
  | tick (g : Game) : Reachable hit g → Reachable hit (Game.update hit g)

/-! ## The SDL intersection primitive -/

/-- The SDL test `SDL_RectEmpty`: a rectangle without positive width and height. -/
def SDL_RectEmpty (r : SDL_Rect) : Bool :=
  decide (r.w ≤ 0) || decide (r.h ≤ 0)

/-- The SDL library routine `SDL_HasIntersection` (SDL 2, `SDL_rect.c`), which the program
calls and the repository does not contain: axis-aligned overlap of the spans
`[x, x + w)` and `[y, y + h)`, `false` when either rectangle is empty.  It serves as the
concrete primitive at explicit inputs; the general theorems quantify over `hit`. -/
def SDL_HasIntersection (A B : SDL_Rect) : Bool :=
  if SDL_RectEmpty A || SDL_RectEmpty B then false
  else if min (A.x + A.w) (B.x + B.w) ≤ max A.x B.x then false
  else if min (A.y + A.h) (B.y + B.h) ≤ max A.y B.y then false
  else true

/-! ## Reference values used in the statements -/

/-- The wall at tile column `c`, tile row `r`, as the layout lists it. -/
def wallAtTile (c r : Int) : Wall :=
  { x := 40 * c, y := 40 * r, rect := ⟨40 * c, 40 * r, 40, 40⟩, active := true }

/-- The 5 x 7 wall layout, rows outer and columns inner. -/
def wallGrid : List Wall :=
  ([3, 5, 7, 9, 11] : List Int).flatMap
    (fun r => ([3, 5, 7, 9, 11, 13, 15] : List Int).map (fun c => wallAtTile c r))

/-- Wall `w'` is wall `w` with, at most, its flag cleared: same place, same box, and active
only if `w` is. -/
def Wall.clearedFrom (w' w : Wall) : Prop :=
  w'.x = w.x ∧ w'.y = w.y ∧ w'.rect = w.rect ∧ (w'.active = true → w.active = true)

/-- The number of active walls in a wall store. -/
def activeWalls (walls : List Wall) : Nat :=
  walls.countP (fun w => w.active)

/-- A wall store for explicit checks: a wall out of the way, an inactive wall at
(120, 120), and two overlapping active walls at (120, 120) and (125, 125). -/
def sampleWalls : List Wall :=
  [Wall.new 200 120, { Wall.new 120 120 with active := false }, Wall.new 120 120,
   Wall.new 125 125]

/-- A tank for explicit checks, at (360, 520), owning a projectile one step from leaving
through the top (to (395, 35)), one inside both sample walls, and one in open space. -/
def sampleTank : PlayerTank :=
  { PlayerTank.new 360 520 with
      bullets := [Bullet.new 395 45 0 (-1), Bullet.new 130 140 0 (-1), Bullet.new 500 300 1 0] }

/-- Wall `w'` stands where wall `w` stood in another wall store that shows the same active
walls: the flags agree, and an active `w` is `w'` itself; an inactive wall may be anywhere. -/
def Wall.agreesWhenActive (w w' : Wall) : Prop :=
  w'.active = w.active ∧ (w.active = true → w' = w)

/-- A game for explicit checks: the sample walls and the sample tank. -/
def sampleGame : Game :=
  { running := true, walls := sampleWalls, player := sampleTank }

/-- The sample walls with the inactive wall taken from (120, 120) to (700, 500). -/
def sampleWallsMoved : List Wall :=
  [Wall.new 200 120, { Wall.new 700 500 with active := false }, Wall.new 120 120,
   Wall.new 125 125]

/-- The velocity of a projectile. -/
def Bullet.velocity (b : Bullet) : Int × Int :=
  (b.dx, b.dy)

/-- One step of play: one polled event, or one `update()`. -/
inductive Step where
  | event (e : SDL_Event)
  | tick
deriving DecidableEq, Repr

/-- The game after one step of play. -/
def Game.step (hit : Intersect) (g : Game) : Step → Game
  | .event e => Game.handleEvent hit g e
  | .tick => Game.update hit g

/-- The game after a sequence of steps of play, first step first. -/
def Game.steps (hit : Intersect) (g : Game) : List Step → Game
  | [] => g
  | s :: rest => Game.steps hit (Game.step hit g s) rest

/-- The velocities with which projectiles are created along a sequence of steps, in order
of creation: an event contributes the velocities of the projectiles it put behind the ones
the tank already had, read off right after the event. -/
def Game.firedVelocities (hit : Intersect) (g : Game) : List Step → List (Int × Int)
  | [] => []
  | .tick :: rest => Game.firedVelocities hit (Game.update hit g) rest
  | .event e :: rest =>
    ((Game.handleEvent hit g e).player.bullets.drop g.player.bullets.length).map
        Bullet.velocity
      ++ Game.firedVelocities hit (Game.handleEvent hit g e) rest

/-- The number of walls that are active in `before` and, at the same index, inactive in
`after`. -/
def deactivatedWalls (before after : List Wall) : Nat :=
  (List.zip before after).countP (fun p => p.1.active && !p.2.active)

/-- Everything of a projectile but its flag: position, velocity and box. -/
def Bullet.body (b : Bullet) : Int × Int × Int × Int × SDL_Rect :=
  (b.x, b.y, b.dx, b.dy, b.rect)

/-- The tank stands inside the arena: 40 <= x <= 720, 40 <= y <= 520, and its box is the
40x40 square at its position. -/
def PlayerTank.inArena (t : PlayerTank) : Prop :=
  40 ≤ t.x ∧ t.x ≤ 720 ∧ 40 ≤ t.y ∧ t.y ≤ 520 ∧ t.rect = ⟨t.x, t.y, 40, 40⟩

/-- The facing direction is one the game produces: (0, -1) from the constructor, or the
delta of an arrow key. -/
def PlayerTank.facingSet (t : PlayerTank) : Prop :=
  (t.dirX = 0 ∧ t.dirY = -1) ∨ (t.dirX = 0 ∧ t.dirY = -5) ∨ (t.dirX = 0 ∧ t.dirY = 5)
    ∨ (t.dirX = -5 ∧ t.dirY = 0) ∨ (t.dirX = 5 ∧ t.dirY = 0)

/-- No active wall of the store intersects the box `r`. -/
def clearOfWalls (hit : Intersect) (r : SDL_Rect) (walls : List Wall) : Prop :=
  ∀ w ∈ walls, w.active = true → hit r w.rect = false

/-- The keys that take the constructed tank, under the SDL primitive, from (360, 520) to
(400, 475), between the walls at (360, 440) and (440, 440): Right 8 times, then Up 9
times. -/
def corridorKeys : List SDL_Event :=
  List.replicate 8 (.SDL_KEYDOWN .SDLK_RIGHT) ++ List.replicate 9 (.SDL_KEYDOWN .SDLK_UP)

/-- The sign of a C++ `int`: -1, 0 or 1. -/
def sign (n : Int) : Int :=
  if n < 0 then -1 else if n = 0 then 0 else 1

/-! ## Theorems -/

theorem MAP_WIDTH_eq : MAP_WIDTH = 20 := by decide

theorem MAP_HEIGHT_eq : MAP_HEIGHT = 15 := by decide

theorem generateWallsCols_step (i j : Int) (walls : List Wall) (h : j < 17) :
    Game.generateWallsCols i j walls =
      Game.generateWallsCols i (j + 2) (walls ++ [wallAtTile j i]) := by
  rw [Game.generateWallsCols, MAP_WIDTH_eq]
  have h2 : j < 20 - 3 := by omega
  simp only [h2, if_true, Wall.new, wallAtTile, TILE_SIZE, mul_comm]

theorem generateWallsCols_stop (i j : Int) (walls : List Wall) (h : 17 ≤ j) :
    Game.generateWallsCols i j walls = walls := by
  rw [Game.generateWallsCols, MAP_WIDTH_eq]
  have h2 : ¬ j < 20 - 3 := by omega
  simp only [h2, if_false]

theorem generateWallsCols_eq (i : Int) (walls : List Wall) :
    Game.generateWallsCols i 3 walls =
      walls ++ ([3, 5, 7, 9, 11, 13, 15] : List Int).map (fun c => wallAtTile c i) := by
  rw [generateWallsCols_step i 3 _ (by decide)]
  rw [generateWallsCols_step i (3 + 2) _ (by decide)]
  rw [generateWallsCols_step i (3 + 2 + 2) _ (by decide)]
  rw [generateWallsCols_step i (3 + 2 + 2 + 2) _ (by decide)]
  rw [generateWallsCols_step i (3 + 2 + 2 + 2 + 2) _ (by decide)]
  rw [generateWallsCols_step i (3 + 2 + 2 + 2 + 2 + 2) _ (by decide)]
  rw [generateWallsCols_step i (3 + 2 + 2 + 2 + 2 + 2 + 2) _ (by decide)]
  rw [generateWallsCols_stop i _ _ (by decide)]
  simp

theorem generateWallsRows_step (i : Int) (walls : List Wall) (h : i < 12) :
    Game.generateWallsRows i walls =
      Game.generateWallsRows (i + 2)
        (walls ++ ([3, 5, 7, 9, 11, 13, 15] : List Int).map (fun c => wallAtTile c i)) := by
  rw [Game.generateWallsRows, MAP_HEIGHT_eq]
  have h2 : i < 15 - 3 := by omega
  simp only [h2, if_true, generateWallsCols_eq]

theorem generateWallsRows_stop (i : Int) (walls : List Wall) (h : 12 ≤ i) :
    Game.generateWallsRows i walls = walls := by
  rw [Game.generateWallsRows, MAP_HEIGHT_eq]
  have h2 : ¬ i < 15 - 3 := by omega
  simp only [h2, if_false]

theorem generateWallsRows_eq (walls : List Wall) :
    Game.generateWallsRows 3 walls = walls ++ wallGrid := by
  rw [generateWallsRows_step 3 _ (by decide)]
  rw [generateWallsRows_step (3 + 2) _ (by decide)]
  rw [generateWallsRows_step (3 + 2 + 2) _ (by decide)]
  rw [generateWallsRows_step (3 + 2 + 2 + 2) _ (by decide)]
  rw [generateWallsRows_step (3 + 2 + 2 + 2 + 2) _ (by decide)]
  rw [generateWallsRows_stop _ _ (by decide)]
  simp [wallGrid]

/-- The constructed game, written out: the 35 walls, the tank at (360, 520) facing (0, -1)
with no projectiles. -/
theorem Game_new_eq (a b c : Bool) :
    Game.new a b c =
      { running := a && b && c, walls := wallGrid,
        player := { x := 360, y := 520, dirX := 0, dirY := -1, rect := ⟨360, 520, 40, 40⟩,
                    bullets := [] } } := by
  simp only [Game.new, Game.generateWalls, generateWallsRows_eq, List.nil_append]
  rfl

/-- The wall loop of `move` returns early exactly when some active wall intersects the
candidate box. -/
theorem moveBlocked_iff (hit : Intersect) (r : SDL_Rect) (walls : List Wall) :
    PlayerTank.moveBlocked hit r walls = true ↔
      ∃ w ∈ walls, w.active = true ∧ hit r w.rect = true := by
  induction walls with
  | nil => simp [PlayerTank.moveBlocked]
  | cons w ws ih =>
    by_cases hw : (w.active && hit r w.rect) = true
    · have hw2 := hw
      simp only [Bool.and_eq_true] at hw2
      simp only [PlayerTank.moveBlocked, hw, if_true, List.mem_cons, true_iff]
      exact ⟨w, Or.inl rfl, hw2⟩
    · simp only [PlayerTank.moveBlocked, hw, if_false, ih, List.mem_cons,
        Bool.false_eq_true]
      constructor
      · rintro ⟨v, hv, h⟩
        exact ⟨v, Or.inr hv, h⟩
      · rintro ⟨v, hv | hv, h⟩
        · subst hv
          exact absurd (by simpa using h) hw
        · exact ⟨v, hv, h⟩

/-- The result of `move`, by cases on the two tests. -/
theorem move_eq (hit : Intersect) (t : PlayerTank) (dx dy : Int) (walls : List Wall) :
    PlayerTank.move hit t dx dy walls =
      if (∀ w ∈ walls, ¬ (w.active = true ∧ hit ⟨t.x + dx, t.y + dy, 40, 40⟩ w.rect = true))
          ∧ 40 ≤ t.x + dx ∧ t.x + dx ≤ 720 ∧ 40 ≤ t.y + dy ∧ t.y + dy ≤ 520 then
        { t with dirX := dx, dirY := dy, x := t.x + dx, y := t.y + dy,
                 rect := ⟨t.x + dx, t.y + dy, t.rect.w, t.rect.h⟩ }
      else { t with dirX := dx, dirY := dy } := by
  by_cases hb : PlayerTank.moveBlocked hit ⟨t.x + dx, t.y + dy, 40, 40⟩ walls = true
  · have hex := (moveBlocked_iff hit _ walls).1 hb
    have hn : ¬ ((∀ w ∈ walls,
        ¬ (w.active = true ∧ hit ⟨t.x + dx, t.y + dy, 40, 40⟩ w.rect = true))
          ∧ 40 ≤ t.x + dx ∧ t.x + dx ≤ 720 ∧ 40 ≤ t.y + dy ∧ t.y + dy ≤ 520) := by
      rintro ⟨hall, -⟩
      obtain ⟨w, hw, h⟩ := hex
      exact hall w hw h
    rw [if_neg hn]
    simp only [PlayerTank.move, TILE_SIZE, hb, if_true]
  · have hall : ∀ w ∈ walls,
        ¬ (w.active = true ∧ hit ⟨t.x + dx, t.y + dy, 40, 40⟩ w.rect = true) := by
      intro w hw h
      exact hb ((moveBlocked_iff hit _ walls).2 ⟨w, hw, h⟩)
    by_cases hin : 40 ≤ t.x + dx ∧ t.x + dx ≤ 720 ∧ 40 ≤ t.y + dy ∧ t.y + dy ≤ 520
    · rw [if_pos ⟨hall, hin⟩]
      have hin2 : t.x + dx ≥ 40 ∧ t.x + dx ≤ 800 - 40 * 2 ∧
          t.y + dy ≥ 40 ∧ t.y + dy ≤ 600 - 40 * 2 := by omega
      simp only [PlayerTank.move, TILE_SIZE, SCREEN_WIDTH, SCREEN_HEIGHT, hb, hin2]
      simp
    · have hn : ¬ ((∀ w ∈ walls,
          ¬ (w.active = true ∧ hit ⟨t.x + dx, t.y + dy, 40, 40⟩ w.rect = true))
            ∧ 40 ≤ t.x + dx ∧ t.x + dx ≤ 720 ∧ 40 ≤ t.y + dy ∧ t.y + dy ≤ 520) :=
        fun h => hin h.2
      rw [if_neg hn]
      have hin2 : ¬ (t.x + dx ≥ 40 ∧ t.x + dx ≤ 800 - 40 * 2 ∧
          t.y + dy ≥ 40 ∧ t.y + dy ≤ 600 - 40 * 2) := by omega
      simp only [PlayerTank.move, TILE_SIZE, SCREEN_WIDTH, SCREEN_HEIGHT, hb, hin2]
      simp

/-- The result of `Bullet::move`, field by field. -/
theorem Bullet_move_eq (b : Bullet) :
    Bullet.move b =
      { x := b.x + b.dx, y := b.y + b.dy, dx := b.dx, dy := b.dy,
        rect := ⟨b.x + b.dx, b.y + b.dy, b.rect.w, b.rect.h⟩,
        active := if b.x + b.dx < 40 ∨ b.x + b.dx > 760 ∨ b.y + b.dy < 40 ∨ b.y + b.dy > 560
                  then false else b.active } := by
  have e1 : SCREEN_WIDTH - TILE_SIZE = 760 := by decide
  have e2 : SCREEN_HEIGHT - TILE_SIZE = 560 := by decide
  have e3 : TILE_SIZE = 40 := rfl
  simp only [Bullet.move, e1, e2, e3]
  split <;> rfl

/-- The advancing loop of `updateBullets` applies `Bullet::move` to each element in place. -/
theorem moveEach_eq_map (bs : List Bullet) :
    PlayerTank.moveEach bs = bs.map Bullet.move := by
  induction bs with
  | nil => rfl
  | cons b bs ih => simp only [PlayerTank.moveEach, ih, List.map_cons]

/-- The erase-remove pass keeps, in order, the elements that fail the predicate. -/
theorem eraseRemoveIf_eq_filter (pred : Bullet → Bool) (bs : List Bullet) :
    PlayerTank.eraseRemoveIf pred bs = bs.filter (fun b => !pred b) := by
  induction bs with
  | nil => rfl
  | cons b bs ih =>
    by_cases hp : pred b = true
    · simp [PlayerTank.eraseRemoveIf, hp, ih]
    · simp [PlayerTank.eraseRemoveIf, hp, ih]

/-- The collection after `updateBullets`: advance all, keep the active ones. -/
theorem updateBullets_bullets (t : PlayerTank) :
    (PlayerTank.updateBullets t).bullets =
      (t.bullets.map Bullet.move).filter (fun b => b.active) := by
  simp only [PlayerTank.updateBullets, moveEach_eq_map, eraseRemoveIf_eq_filter,
    Bool.not_not]

/-- Polling a whole queue of events keeps the game among the reachable states. -/
theorem reachable_handleEvents (hit : Intersect) (events : List SDL_Event) :
    ∀ g : Game, Reachable hit g → Reachable hit (Game.handleEvents hit g events) := by
  induction events with
  | nil => intro g hg; exact hg
  | cons e es ih =>
    intro g hg
    exact ih _ (Reachable.event g e hg)

/-- One pass of the game loop keeps the game among the reachable states. -/
theorem reachable_runIteration (hit : Intersect) (g : Game) (events : List SDL_Event)
    (hg : Reachable hit g) : Reachable hit (Game.runIteration hit g events) :=
  Reachable.tick _ (reachable_handleEvents hit events g hg)

/-- A bullet that no active wall intersects leaves walls and bullet as they are. -/
theorem hitScan_none (hit : Intersect) (b : Bullet) (walls : List Wall)
    (h : ∀ w ∈ walls, ¬ (w.active = true ∧ hit b.rect w.rect = true)) :
    Game.hitScan hit b walls = (walls, b) := by
  induction walls with
  | nil => rfl
  | cons w ws ih =>
    have hw : ¬ ((w.active && hit b.rect w.rect) = true) := by
      simpa using h w (List.mem_cons_self _ _)
    have ih2 := ih (fun v hv => h v (List.mem_cons_of_mem _ hv))
    rw [Game.hitScan, if_neg hw, ih2]

/-- The scan stops at the first wall that is active and intersects the bullet, clearing
that wall and the bullet and nothing else. -/
theorem hitScan_first (hit : Intersect) (b : Bullet) (pre : List Wall) (w : Wall)
    (post : List Wall)
    (hpre : ∀ v ∈ pre, ¬ (v.active = true ∧ hit b.rect v.rect = true))
    (hact : w.active = true) (hhit : hit b.rect w.rect = true) :
    Game.hitScan hit b (pre ++ w :: post) =
      (pre ++ { w with active := false } :: post, { b with active := false }) := by
  induction pre with
  | nil =>
    have hw : (w.active && hit b.rect w.rect) = true := by simp [hact, hhit]
    rw [List.nil_append, Game.hitScan, if_pos hw]
    rfl
  | cons v vs ih =>
    have hv : ¬ ((v.active && hit b.rect v.rect) = true) := by
      simpa using hpre v (List.mem_cons_self _ _)
    have ih2 := ih (fun u hu => hpre u (List.mem_cons_of_mem _ hu))
    rw [List.cons_append, Game.hitScan, if_neg hv, ih2]
    rfl

/-- A wall store with an active wall intersecting the bullet splits at the first such wall. -/
theorem first_hit_split (hit : Intersect) (b : Bullet) (walls : List Wall)
    (h : ∃ w ∈ walls, w.active = true ∧ hit b.rect w.rect = true) :
    ∃ pre w post, walls = pre ++ w :: post
      ∧ (∀ v ∈ pre, ¬ (v.active = true ∧ hit b.rect v.rect = true))
      ∧ w.active = true ∧ hit b.rect w.rect = true := by
  induction walls with
  | nil =>
    obtain ⟨w, hw, -⟩ := h
    exact absurd hw (List.not_mem_nil _)
  | cons v vs ih =>
    by_cases hv : v.active = true ∧ hit b.rect v.rect = true
    · exact ⟨[], v, vs, rfl, fun u hu => absurd hu (List.not_mem_nil _), hv.1, hv.2⟩
    · have h2 : ∃ w ∈ vs, w.active = true ∧ hit b.rect w.rect = true := by
        obtain ⟨w, hw, hwa⟩ := h
        rcases List.mem_cons.1 hw with rfl | hw2
        · exact absurd hwa hv
        · exact ⟨w, hw2, hwa⟩
      obtain ⟨pre, w, post, hsplit, hpre, hact, hhit⟩ := ih h2
      refine ⟨v :: pre, w, post, by rw [hsplit]; rfl, ?_, hact, hhit⟩
      intro u hu
      rcases List.mem_cons.1 hu with rfl | hu2
      · exact hv
      · exact hpre u hu2

/-- Clearing the flag of one active wall lowers the number of active walls by one. -/
theorem activeWalls_clear_one (pre : List Wall) (w : Wall) (post : List Wall)
    (hact : w.active = true) :
    activeWalls (pre ++ { w with active := false } :: post) + 1 =
      activeWalls (pre ++ w :: post) := by
  simp only [activeWalls, List.countP_append, List.countP_cons, hact, if_true]
  simp only [Bool.false_eq_true, if_false]
  omega

/-- One scan clears at most one wall. -/
theorem activeWalls_hitScan (hit : Intersect) (b : Bullet) (walls : List Wall) :
    activeWalls walls ≤ activeWalls (Game.hitScan hit b walls).1 + 1 := by
  by_cases h : ∃ w ∈ walls, w.active = true ∧ hit b.rect w.rect = true
  · obtain ⟨pre, w, post, hsplit, hpre, hact, hhit⟩ := first_hit_split hit b walls h
    rw [hsplit, hitScan_first hit b pre w post hpre hact hhit]
    exact le_of_eq (activeWalls_clear_one pre w post hact).symm
  · have h2 : ∀ w ∈ walls, ¬ (w.active = true ∧ hit b.rect w.rect = true) :=
      fun w hw hwa => h ⟨w, hw, hwa⟩
    rw [hitScan_none hit b walls h2]
    exact Nat.le_succ _

/-- One scan changes no wall except, at most, by clearing its flag. -/
theorem hitScan_clearedFrom (hit : Intersect) (b : Bullet) (walls : List Wall) :
    List.Forall₂ Wall.clearedFrom (Game.hitScan hit b walls).1 walls := by
  induction walls with
  | nil => exact List.Forall₂.nil
  | cons w ws ih =>
    by_cases hw : (w.active && hit b.rect w.rect) = true
    · rw [Game.hitScan, if_pos hw]
      refine List.Forall₂.cons ⟨rfl, rfl, rfl, fun h => ?_⟩ ?_
      · exact absurd h Bool.false_ne_true
      · exact List.forall₂_same.2 (fun v _ => ⟨rfl, rfl, rfl, fun h => h⟩)
    · rw [Game.hitScan, if_neg hw]
      exact List.Forall₂.cons ⟨rfl, rfl, rfl, fun h => h⟩ ih

/-- The relation `clearedFrom` composes along wall stores. -/
theorem clearedFrom_trans :
    ∀ {l₃ l₂ l₁ : List Wall}, List.Forall₂ Wall.clearedFrom l₃ l₂ →
      List.Forall₂ Wall.clearedFrom l₂ l₁ → List.Forall₂ Wall.clearedFrom l₃ l₁
  | _, _, _, .nil, .nil => .nil
  | _, _, _, .cons h32 t32, .cons h21 t21 =>
    .cons ⟨h32.1.trans h21.1, h32.2.1.trans h21.2.1, h32.2.2.1.trans h21.2.2.1,
        fun h => h21.2.2.2 (h32.2.2.2 h)⟩
      (clearedFrom_trans t32 t21)

/-- The collision loops, unfolded at the last bullet of the collection. -/
theorem collide_append_singleton (hit : Intersect) (b : Bullet) (bs : List Bullet) :
    ∀ walls : List Wall,
      Game.collide hit (bs ++ [b]) walls =
        ((Game.collide hit bs walls).1 ++
            [(Game.hitScan hit b (Game.collide hit bs walls).2).2],
          (Game.hitScan hit b (Game.collide hit bs walls).2).1) := by
  induction bs with
  | nil => intro walls; rfl
  | cons a as ih =>
    intro walls
    rw [List.cons_append, Game.collide, Game.collide]
    simp only [ih, List.cons_append]

/-- The collision loops clear at most one wall per bullet. -/
theorem activeWalls_collide (hit : Intersect) (bs : List Bullet) :
    ∀ walls : List Wall,
      activeWalls walls ≤ activeWalls (Game.collide hit bs walls).2 + bs.length := by
  induction bs with
  | nil => intro walls; exact Nat.le_refl _
  | cons b bs ih =>
    intro walls
    have h1 := activeWalls_hitScan hit b walls
    have h2 := ih (Game.hitScan hit b walls).1
    simp only [Game.collide, List.length_cons]
    omega

/-- The collision loops change no wall except by clearing flags. -/
theorem collide_clearedFrom (hit : Intersect) (bs : List Bullet) :
    ∀ walls : List Wall,
      List.Forall₂ Wall.clearedFrom (Game.collide hit bs walls).2 walls := by
  induction bs with
  | nil =>
    intro walls
    exact List.forall₂_same.2 (fun v _ => ⟨rfl, rfl, rfl, fun h => h⟩)
  | cons b bs ih =>
    intro walls
    simp only [Game.collide]
    exact clearedFrom_trans (ih _) (hitScan_clearedFrom hit b walls)

/-- The direction fields after `move`, on every path. -/
theorem move_dir_eq (hit : Intersect) (t : PlayerTank) (dx dy : Int) (walls : List Wall) :
    (PlayerTank.move hit t dx dy walls).dirX = dx ∧
    (PlayerTank.move hit t dx dy walls).dirY = dy := by
  rw [move_eq]
  split <;> exact ⟨rfl, rfl⟩

/-- The wall loop of `move` gives the same answer on the active walls alone. -/
theorem moveBlocked_filter (hit : Intersect) (r : SDL_Rect) (walls : List Wall) :
    PlayerTank.moveBlocked hit r (walls.filter (fun w => w.active)) =
      PlayerTank.moveBlocked hit r walls := by
  induction walls with
  | nil => rfl
  | cons w ws ih =>
    by_cases hact : w.active = true
    · rw [List.filter_cons_of_pos (by simpa using hact), PlayerTank.moveBlocked,
        PlayerTank.moveBlocked, ih]
    · have hf : w.active = false := by simpa using hact
      rw [List.filter_cons_of_neg (by simpa using hact), PlayerTank.moveBlocked, ih]
      simp only [hf, Bool.false_and, Bool.false_eq_true, if_false]

/-- `move` depends on the wall store only through its active walls. -/
theorem move_congr_active (hit : Intersect) (t : PlayerTank) (dx dy : Int)
    (walls walls' : List Wall)
    (h : walls'.filter (fun w => w.active) = walls.filter (fun w => w.active)) :
    PlayerTank.move hit t dx dy walls' = PlayerTank.move hit t dx dy walls := by
  have hb : ∀ r, PlayerTank.moveBlocked hit r walls' = PlayerTank.moveBlocked hit r walls := by
    intro r
    rw [← moveBlocked_filter hit r walls', ← moveBlocked_filter hit r walls, h]
  simp only [PlayerTank.move, hb]

/-- One scan, run on the active walls alone: same bullet, same active walls afterwards. -/
theorem hitScan_filter (hit : Intersect) (b : Bullet) (walls : List Wall) :
    (Game.hitScan hit b (walls.filter (fun w => w.active))).2 = (Game.hitScan hit b walls).2
    ∧ (Game.hitScan hit b (walls.filter (fun w => w.active))).1.filter (fun w => w.active)
        = (Game.hitScan hit b walls).1.filter (fun w => w.active) := by
  induction walls with
  | nil => exact ⟨rfl, rfl⟩
  | cons w ws ih =>
    by_cases hact : w.active = true
    · rw [List.filter_cons_of_pos (by simpa using hact)]
      by_cases hh : hit b.rect w.rect = true
      · have hc : (w.active && hit b.rect w.rect) = true := by simp [hact, hh]
        rw [Game.hitScan, Game.hitScan, if_pos hc, if_pos hc]
        refine ⟨rfl, ?_⟩
        simp only [List.filter_cons, Bool.false_eq_true, if_false, List.filter_filter,
          Bool.and_self]
      · have hc : ¬ (w.active && hit b.rect w.rect) = true := by simp [hact, hh]
        rw [Game.hitScan, Game.hitScan, if_neg hc, if_neg hc]
        refine ⟨ih.1, ?_⟩
        simp only [List.filter_cons, hact, if_true, ih.2]
    · have hc : ¬ (w.active && hit b.rect w.rect) = true := by simp [hact]
      rw [List.filter_cons_of_neg (by simpa using hact), Game.hitScan, if_neg hc]
      refine ⟨ih.1, ?_⟩
      rw [List.filter_cons_of_neg (by simpa using hact)]
      exact ih.2

/-- One scan depends on the wall store only through its active walls. -/
theorem hitScan_congr_active (hit : Intersect) (b : Bullet) (walls walls' : List Wall)
    (h : walls'.filter (fun w => w.active) = walls.filter (fun w => w.active)) :
    (Game.hitScan hit b walls').2 = (Game.hitScan hit b walls).2
    ∧ (Game.hitScan hit b walls').1.filter (fun w => w.active)
        = (Game.hitScan hit b walls).1.filter (fun w => w.active) := by
  have h1 := hitScan_filter hit b walls
  have h2 := hitScan_filter hit b walls'
  rw [h] at h2
  exact ⟨h2.1.symm.trans h1.1, h2.2.symm.trans h1.2⟩

/-- The collision loops depend on the wall store only through its active walls. -/
theorem collide_congr_active (hit : Intersect) (bs : List Bullet) :
    ∀ walls walls' : List Wall,
      walls'.filter (fun w => w.active) = walls.filter (fun w => w.active) →
      (Game.collide hit bs walls').1 = (Game.collide hit bs walls).1
      ∧ (Game.collide hit bs walls').2.filter (fun w => w.active)
          = (Game.collide hit bs walls).2.filter (fun w => w.active) := by
  induction bs with
  | nil => intro walls walls' h; exact ⟨rfl, h⟩
  | cons b bs ih =>
    intro walls walls' h
    obtain ⟨hb, hw⟩ := hitScan_congr_active hit b walls walls' h
    obtain ⟨ih1, ih2⟩ := ih _ _ hw
    rw [Game.collide, Game.collide]
    exact ⟨by simp only [hb, ih1], ih2⟩

/-- Wall stores that agree on their active walls, place by place, show the same active
walls. -/
theorem filter_eq_of_agreesWhenActive {walls walls' : List Wall}
    (h : List.Forall₂ Wall.agreesWhenActive walls walls') :
    walls'.filter (fun w => w.active) = walls.filter (fun w => w.active) := by
  induction h with
  | nil => rfl
  | @cons w w' ws ws' hw _ ih =>
    by_cases hact : w.active = true
    · have hw' : w' = w := hw.2 hact
      subst hw'
      rw [List.filter_cons_of_pos (by simpa using hact),
        List.filter_cons_of_pos (by simpa using hact), ih]
    · have hf' : ¬ w'.active = true := by rw [hw.1]; exact hact
      rw [List.filter_cons_of_neg (by simpa using hf'),
        List.filter_cons_of_neg (by simpa using hact), ih]

/-- Walls related by `clearedFrom` along two stores: the walls at any one index are
related. -/
theorem clearedFrom_index {l' l : List Wall} (h : List.Forall₂ Wall.clearedFrom l' l) :
    ∀ (i : Nat) (w w' : Wall), l[i]? = some w → l'[i]? = some w' → Wall.clearedFrom w' w := by
  induction h with
  | nil =>
    intro i w w' hw
    simp at hw
  | @cons a b as bs hab _ ih =>
    intro i w w' hw hw'
    cases i with
    | zero =>
      simp only [List.getElem?_cons_zero, Option.some.injEq] at hw hw'
      subst hw; subst hw'
      exact hab
    | succ n =>
      simp only [List.getElem?_cons_succ] at hw hw'
      exact ih n w w' hw hw'

/-- Walls related by `clearedFrom` along two stores stand at the same places in the same
order. -/
theorem clearedFrom_places {l' l : List Wall} (h : List.Forall₂ Wall.clearedFrom l' l) :
    l'.map (fun w => (w.x, w.y, w.rect)) = l.map (fun w => (w.x, w.y, w.rect)) := by
  induction h with
  | nil => rfl
  | @cons a b as bs hab _ ih =>
    simp only [List.map_cons, ih, hab.1, hab.2.1, hab.2.2.1]

/-- A key event changes no wall. -/
theorem handleEvent_walls (hit : Intersect) (g : Game) (e : SDL_Event) :
    (Game.handleEvent hit g e).walls = g.walls := by
  cases e with
  | SDL_QUIT => rfl
  | other => rfl
  | SDL_KEYDOWN sym => cases sym <;> rfl

/-- Polling a queue of events changes no wall. -/
theorem handleEvents_walls (hit : Intersect) (events : List SDL_Event) :
    ∀ g : Game, (Game.handleEvents hit g events).walls = g.walls := by
  induction events with
  | nil => intro g; rfl
  | cons e es ih =>
    intro g
    rw [Game.handleEvents, ih, handleEvent_walls]

/-- The bullet a scan returns: the bullet itself, with the flag cleared when some active
wall intersects its box. -/
theorem hitScan_snd (hit : Intersect) (b : Bullet) (walls : List Wall) :
    (Game.hitScan hit b walls).2 =
      if walls.any (fun w => w.active && hit b.rect w.rect) = true
      then { b with active := false } else b := by
  induction walls with
  | nil => rfl
  | cons w ws ih =>
    by_cases hc : (w.active && hit b.rect w.rect) = true
    · rw [Game.hitScan, if_pos hc, List.any_cons, hc, Bool.true_or, if_pos rfl]
    · have hf : (w.active && hit b.rect w.rect) = false := by simpa using hc
      rw [Game.hitScan, if_neg hc, List.any_cons, hf, Bool.false_or]
      exact ih

/-- A scan changes nothing of the bullet but, at most, its flag. -/
theorem hitScan_snd_fields (hit : Intersect) (b : Bullet) (walls : List Wall) :
    (Game.hitScan hit b walls).2.x = b.x ∧ (Game.hitScan hit b walls).2.y = b.y
    ∧ (Game.hitScan hit b walls).2.dx = b.dx ∧ (Game.hitScan hit b walls).2.dy = b.dy
    ∧ (Game.hitScan hit b walls).2.rect = b.rect := by
  rw [hitScan_snd]
  split <;> exact ⟨rfl, rfl, rfl, rfl, rfl⟩

/-- The collision loops keep the velocities of the bullets, place by place. -/
theorem collide_velocities (hit : Intersect) (bs : List Bullet) :
    ∀ walls : List Wall,
      (Game.collide hit bs walls).1.map Bullet.velocity = bs.map Bullet.velocity := by
  induction bs with
  | nil => intro walls; rfl
  | cons b bs ih =>
    intro walls
    obtain ⟨-, -, hdx, hdy, -⟩ := hitScan_snd_fields hit b walls
    rw [Game.collide]
    simp only [List.map_cons, ih, Bullet.velocity, hdx, hdy]

/-- `Bullet::move` keeps the velocity. -/
theorem Bullet_move_velocity (b : Bullet) :
    Bullet.velocity (Bullet.move b) = Bullet.velocity b := by
  rw [Bullet_move_eq]
  rfl

/-- The velocities after `update`: those of the bullets that are active once advanced,
in their order. -/
theorem update_velocities (hit : Intersect) (g : Game) :
    (Game.update hit g).player.bullets.map Bullet.velocity =
      (g.player.bullets.filter (fun b => (Bullet.move b).active)).map Bullet.velocity := by
  have h1 : (Game.update hit g).player.bullets =
      (Game.collide hit (PlayerTank.updateBullets g.player).bullets g.walls).1 := rfl
  rw [h1, collide_velocities, updateBullets_bullets, List.filter_map, List.map_map]
  apply List.map_congr_left
  intro b _
  exact Bullet_move_velocity b

/-- `move` leaves the projectile collection alone. -/
theorem move_bullets (hit : Intersect) (t : PlayerTank) (dx dy : Int) (walls : List Wall) :
    (PlayerTank.move hit t dx dy walls).bullets = t.bullets := by
  rw [move_eq]
  split <;> rfl

/-- An event leaves the projectiles the tank has in place, and puts at most one new
projectile behind them. -/
theorem handleEvent_bullets (hit : Intersect) (g : Game) (e : SDL_Event) :
    (Game.handleEvent hit g e).player.bullets = g.player.bullets
    ∨ (Game.handleEvent hit g e).player.bullets =
        g.player.bullets ++
          [Bullet.new (g.player.x + 15) (g.player.y + 15) g.player.dirX g.player.dirY] := by
  cases e with
  | SDL_QUIT => exact Or.inl rfl
  | other => exact Or.inl rfl
  | SDL_KEYDOWN sym =>
    cases sym with
    | SDLK_UP => exact Or.inl (move_bullets hit _ _ _ _)
    | SDLK_DOWN => exact Or.inl (move_bullets hit _ _ _ _)
    | SDLK_LEFT => exact Or.inl (move_bullets hit _ _ _ _)
    | SDLK_RIGHT => exact Or.inl (move_bullets hit _ _ _ _)
    | other => exact Or.inl rfl
    | SDLK_SPACE =>
      by_cases hz : g.player.dirX = 0 ∧ g.player.dirY = 0
      · left
        simp only [Game.handleEvent, PlayerTank.shoot, hz, and_self, if_true]
      · right
        have e20 : Int.tdiv TILE_SIZE 2 = 20 := by decide
        have e1 : g.player.x + Int.tdiv TILE_SIZE 2 - 5 = g.player.x + 15 := by omega
        have e2 : g.player.y + Int.tdiv TILE_SIZE 2 - 5 = g.player.y + 15 := by omega
        simp only [Game.handleEvent, PlayerTank.shoot, hz, if_false, e1, e2]

/-- The collection after an event is the collection before it followed by what the event
put behind it. -/
theorem handleEvent_bullets_split (hit : Intersect) (g : Game) (e : SDL_Event) :
    (Game.handleEvent hit g e).player.bullets =
      g.player.bullets ++
        (Game.handleEvent hit g e).player.bullets.drop g.player.bullets.length := by
  rcases handleEvent_bullets hit g e with h | h
  · rw [h]; simp
  · rw [h]; simp

/-- Along two wall stores related by `clearedFrom`, the walls that went from active to
inactive and the walls still active make up the walls that were active. -/
theorem deactivatedWalls_add {after before : List Wall}
    (h : List.Forall₂ Wall.clearedFrom after before) :
    deactivatedWalls before after + activeWalls after = activeWalls before := by
  induction h with
  | nil => rfl
  | @cons a b as bs hab _ ih =>
    simp only [deactivatedWalls, activeWalls, List.zip_cons_cons, List.countP_cons] at ih ⊢
    cases ha : a.active with
    | true =>
      have hb : b.active = true := hab.2.2.2 ha
      simp only [hb, Bool.not_true, Bool.and_false, Bool.false_eq_true, if_false, if_true]
      omega
    | false =>
      cases hb : b.active with
      | true =>
        simp only [Bool.not_false, Bool.and_self, Bool.false_eq_true, if_false, if_true]
        omega
      | false =>
        simp only [Bool.not_false, Bool.and_true, Bool.false_eq_true, if_false]
        omega

/-- One scan of an active bullet: the bullet ends inactive exactly when an active wall
intersects its box. -/
theorem hitScan_snd_inactive_iff (hit : Intersect) (b : Bullet) (walls : List Wall)
    (hb : b.active = true) :
    (Game.hitScan hit b walls).2.active = false ↔
      ∃ w ∈ walls, w.active = true ∧ hit b.rect w.rect = true := by
  rw [hitScan_snd]
  by_cases hany : walls.any (fun w => w.active && hit b.rect w.rect) = true
  · rw [if_pos hany]
    simp only [true_iff]
    obtain ⟨w, hw, hc⟩ := List.any_eq_true.1 hany
    exact ⟨w, hw, by simpa using hc⟩
  · rw [if_neg hany, hb]
    simp only [Bool.true_eq_false, false_iff]
    rintro ⟨w, hw, hc⟩
    exact hany (List.any_eq_true.2 ⟨w, hw, by simpa using hc⟩)

/-- One scan of an active bullet clears one wall if the bullet ends inactive and none
otherwise. -/
theorem hitScan_pairs (hit : Intersect) (b : Bullet) (walls : List Wall)
    (hb : b.active = true) :
    activeWalls (Game.hitScan hit b walls).1
        + [(Game.hitScan hit b walls).2].countP (fun c => !c.active)
      = activeWalls walls := by
  by_cases h : ∃ w ∈ walls, w.active = true ∧ hit b.rect w.rect = true
  · obtain ⟨pre, w, post, hsplit, hpre, hact, hhit⟩ := first_hit_split hit b walls h
    rw [hsplit, hitScan_first hit b pre w post hpre hact hhit]
    have := activeWalls_clear_one pre w post hact
    simp only [List.countP_cons, List.countP_nil, Bool.not_false, if_true]
    omega
  · have h2 : ∀ w ∈ walls, ¬ (w.active = true ∧ hit b.rect w.rect = true) :=
      fun w hw hwa => h ⟨w, hw, hwa⟩
    rw [hitScan_none hit b walls h2]
    simp only [List.countP_cons, List.countP_nil, hb, Bool.not_true, Bool.false_eq_true,
      if_false]
    omega

/-- The collision loops on active bullets: the walls still active and the bullets now
inactive make up the walls that were active. -/
theorem collide_pairs (hit : Intersect) (bs : List Bullet) :
    ∀ walls : List Wall, (∀ b ∈ bs, b.active = true) →
      activeWalls (Game.collide hit bs walls).2
          + (Game.collide hit bs walls).1.countP (fun c => !c.active)
        = activeWalls walls := by
  induction bs with
  | nil => intro walls _; rfl
  | cons b bs ih =>
    intro walls hall
    have h1 := hitScan_pairs hit b walls (hall b (List.mem_cons_self _ _))
    have h2 := ih (Game.hitScan hit b walls).1 (fun c hc => hall c (List.mem_cons_of_mem _ hc))
    rw [Game.collide]
    simp only [List.countP_cons, List.countP_nil] at h1 ⊢
    omega

/-- The collision loops keep everything of each bullet but its flag, place by place. -/
theorem collide_bodies (hit : Intersect) (bs : List Bullet) :
    ∀ walls : List Wall,
      (Game.collide hit bs walls).1.map Bullet.body = bs.map Bullet.body := by
  induction bs with
  | nil => intro walls; rfl
  | cons b bs ih =>
    intro walls
    obtain ⟨hx, hy, hdx, hdy, hr⟩ := hitScan_snd_fields hit b walls
    rw [Game.collide]
    simp only [List.map_cons, ih, Bullet.body, hx, hy, hdx, hdy, hr]

/-- The collision loops return as many bullets as they are given. -/
theorem collide_length (hit : Intersect) (bs : List Bullet) (walls : List Wall) :
    (Game.collide hit bs walls).1.length = bs.length := by
  have h := congrArg List.length (collide_bodies hit bs walls)
  simpa only [List.length_map] using h

/-- The bullet at index `i` after the collision loops: the bullet given at index `i`,
scanned against the walls as the bullets before it left them. -/
theorem collide_index (hit : Intersect) (bs : List Bullet) :
    ∀ (walls : List Wall) (i : Nat) (b : Bullet), bs[i]? = some b →
      (Game.collide hit bs walls).1[i]? =
        some (Game.hitScan hit b (Game.collide hit (bs.take i) walls).2).2 := by
  induction bs with
  | nil =>
    intro walls i b hb
    simp at hb
  | cons b0 bs ih =>
    intro walls i b hb
    cases i with
    | zero =>
      simp only [List.getElem?_cons_zero, Option.some.injEq] at hb
      subst hb
      rw [List.take_zero, Game.collide, Game.collide]
      simp only [List.getElem?_cons_zero]
    | succ n =>
      simp only [List.getElem?_cons_succ] at hb
      have h := ih (Game.hitScan hit b0 walls).1 n b hb
      rw [List.take_succ_cons, Game.collide, Game.collide]
      simpa only [List.getElem?_cons_succ] using h

/-- After `updateBullets` every bullet in the collection is active. -/
theorem updateBullets_all_active (t : PlayerTank) :
    ∀ b ∈ (PlayerTank.updateBullets t).bullets, b.active = true := by
  intro b hb
  rw [updateBullets_bullets, List.mem_filter] at hb
  exact hb.2

/-- `move` keeps a tank inside the arena. -/
theorem move_inArena (hit : Intersect) (t : PlayerTank) (dx dy : Int) (walls : List Wall)
    (h : PlayerTank.inArena t) : PlayerTank.inArena (PlayerTank.move hit t dx dy walls) := by
  obtain ⟨h1, h2, h3, h4, hr⟩ := h
  rw [move_eq]
  split
  · next hfree =>
    obtain ⟨-, b1, b2, b3, b4⟩ := hfree
    refine ⟨b1, b2, b3, b4, ?_⟩
    simp only [hr]
  · exact ⟨h1, h2, h3, h4, hr⟩

/-- An event keeps the tank inside the arena. -/
theorem handleEvent_inArena (hit : Intersect) (g : Game) (e : SDL_Event)
    (h : PlayerTank.inArena g.player) :
    PlayerTank.inArena (Game.handleEvent hit g e).player := by
  cases e with
  | SDL_QUIT => exact h
  | other => exact h
  | SDL_KEYDOWN sym =>
    cases sym with
    | SDLK_UP => exact move_inArena hit _ _ _ _ h
    | SDLK_DOWN => exact move_inArena hit _ _ _ _ h
    | SDLK_LEFT => exact move_inArena hit _ _ _ _ h
    | SDLK_RIGHT => exact move_inArena hit _ _ _ _ h
    | other => exact h
    | SDLK_SPACE =>
      simp only [Game.handleEvent, PlayerTank.shoot]
      split
      · exact h
      · exact h

/-- `move` ends with the tank box clear of the walls if it started so. -/
theorem move_clearOfWalls (hit : Intersect) (t : PlayerTank) (dx dy : Int)
    (walls : List Wall) (hr : t.rect = ⟨t.x, t.y, 40, 40⟩)
    (h : clearOfWalls hit t.rect walls) :
    clearOfWalls hit (PlayerTank.move hit t dx dy walls).rect walls := by
  rw [move_eq]
  split
  · next hfree =>
    intro w hw hact
    have hno := hfree.1 w hw
    simp only [hr]
    cases hh : hit ⟨t.x + dx, t.y + dy, 40, 40⟩ w.rect with
    | false => rfl
    | true => exact absurd ⟨hact, hh⟩ hno
  · exact h

/-- An event ends with the tank box clear of the walls if it started so. -/
theorem handleEvent_clearOfWalls (hit : Intersect) (g : Game) (e : SDL_Event)
    (hr : g.player.rect = ⟨g.player.x, g.player.y, 40, 40⟩)
    (h : clearOfWalls hit g.player.rect g.walls) :
    clearOfWalls hit (Game.handleEvent hit g e).player.rect (Game.handleEvent hit g e).walls := by
  rw [handleEvent_walls]
  cases e with
  | SDL_QUIT => exact h
  | other => exact h
  | SDL_KEYDOWN sym =>
    cases sym with
    | SDLK_UP => exact move_clearOfWalls hit _ _ _ _ hr h
    | SDLK_DOWN => exact move_clearOfWalls hit _ _ _ _ hr h
    | SDLK_LEFT => exact move_clearOfWalls hit _ _ _ _ hr h
    | SDLK_RIGHT => exact move_clearOfWalls hit _ _ _ _ hr h
    | other => exact h
    | SDLK_SPACE =>
      simp only [Game.handleEvent, PlayerTank.shoot]
      split
      · exact h
      · exact h

/-- Every wall of a store related by `clearedFrom` to another comes from a wall there. -/
theorem clearedFrom_mem {l' l : List Wall} (h : List.Forall₂ Wall.clearedFrom l' l) :
    ∀ w' ∈ l', ∃ w ∈ l, Wall.clearedFrom w' w := by
  induction h with
  | nil =>
    intro w' hw'
    exact absurd hw' (List.not_mem_nil _)
  | @cons a b as bs hab _ ih =>
    intro w' hw'
    rcases List.mem_cons.1 hw' with rfl | hmem
    · exact ⟨b, List.mem_cons_self _ _, hab⟩
    · obtain ⟨w, hw, hc⟩ := ih w' hmem
      exact ⟨w, List.mem_cons_of_mem _ hw, hc⟩

/-- `update` ends with the tank box clear of the walls if it started so. -/
theorem update_clearOfWalls (hit : Intersect) (g : Game)
    (h : clearOfWalls hit g.player.rect g.walls) :
    clearOfWalls hit (Game.update hit g).player.rect (Game.update hit g).walls := by
  intro w' hw' hact
  obtain ⟨w, hw, hx, hy, hrect, hflag⟩ :=
    clearedFrom_mem (collide_clearedFrom hit (PlayerTank.updateBullets g.player).bullets
      g.walls) w' hw'
  have hrect' : w'.rect = w.rect := hrect
  rw [hrect']
  exact h w hw (hflag hact)

/-- An event leaves the facing direction among the directions the game produces. -/
theorem handleEvent_facingSet (hit : Intersect) (g : Game) (e : SDL_Event)
    (h : PlayerTank.facingSet g.player) :
    PlayerTank.facingSet (Game.handleEvent hit g e).player := by
  cases e with
  | SDL_QUIT => exact h
  | other => exact h
  | SDL_KEYDOWN sym =>
    cases sym with
    | SDLK_UP =>
      obtain ⟨h1, h2⟩ := move_dir_eq hit g.player 0 (-5) g.walls
      exact Or.inr (Or.inl ⟨h1, h2⟩)
    | SDLK_DOWN =>
      obtain ⟨h1, h2⟩ := move_dir_eq hit g.player 0 5 g.walls
      exact Or.inr (Or.inr (Or.inl ⟨h1, h2⟩))
    | SDLK_LEFT =>
      obtain ⟨h1, h2⟩ := move_dir_eq hit g.player (-5) 0 g.walls
      exact Or.inr (Or.inr (Or.inr (Or.inl ⟨h1, h2⟩)))
    | SDLK_RIGHT =>
      obtain ⟨h1, h2⟩ := move_dir_eq hit g.player 5 0 g.walls
      exact Or.inr (Or.inr (Or.inr (Or.inr ⟨h1, h2⟩)))
    | other => exact h
    | SDLK_SPACE =>
      simp only [Game.handleEvent, PlayerTank.shoot]
      split
      · exact h
      · exact h

/-- The constructed tank stands inside the arena. -/
theorem initial_tank_inArena :
    PlayerTank.inArena
      { x := 360, y := 520, dirX := 0, dirY := -1, rect := ⟨360, 520, 40, 40⟩,
        bullets := [] } :=
  ⟨by decide, by decide, by decide, by decide, rfl⟩

/-! ### C1: wall generation -/

/-- C1. `generateWalls` appends to the wall store exactly the walls at pixel positions
(40*c, 40*r) for r in 3,5,7,9,11 (outer) and c in 3,5,...,15 (inner), each active, and
touches nothing else; so from an empty store, and in the constructed game, the store is that
list of 35 pairwise distinct walls.  There is a wall at tile (3,3) and at tile (5,3), in
either reading of the pair, and none at tile (4,3) in either reading. -/
theorem generateWalls_layout :
    (∀ g : Game,
      (Game.generateWalls g).walls =
          g.walls ++ ([3, 5, 7, 9, 11] : List Int).flatMap (fun r =>
            ([3, 5, 7, 9, 11, 13, 15] : List Int).map (fun c =>
              ({ x := 40 * c, y := 40 * r, rect := ⟨40 * c, 40 * r, 40, 40⟩,
                 active := true } : Wall)))
        ∧ (Game.generateWalls g).player = g.player
        ∧ (Game.generateWalls g).running = g.running)
    ∧ (∀ running player,
        (Game.generateWalls { running := running, walls := [], player := player }).walls
          = wallGrid)
    ∧ (∀ a b c, (Game.new a b c).walls = wallGrid)
    ∧ wallGrid.length = 35
    ∧ wallGrid.Nodup
    ∧ (wallGrid.map (fun w => (w.x, w.y))).Nodup
    ∧ wallGrid.all (fun w => w.active && decide (w.rect = ⟨w.x, w.y, 40, 40⟩)) = true
    ∧ (120, 120) ∈ wallGrid.map (fun w => (w.x, w.y))
    ∧ (200, 120) ∈ wallGrid.map (fun w => (w.x, w.y))
    ∧ (120, 200) ∈ wallGrid.map (fun w => (w.x, w.y))
    ∧ (160, 120) ∉ wallGrid.map (fun w => (w.x, w.y))
    ∧ (120, 160) ∉ wallGrid.map (fun w => (w.x, w.y)) := by
  refine ⟨?_, ?_, ?_, ?_, ?_, ?_, ?_, ?_, ?_, ?_, ?_, ?_⟩
  · intro g
    refine ⟨?_, rfl, rfl⟩
    simp only [Game.generateWalls, generateWallsRows_eq]
    rfl
  · intro running player
    simp only [Game.generateWalls, generateWallsRows_eq, List.nil_append]
  · intro a b c
    rw [Game_new_eq]
  · decide
  · decide
  · decide
  · decide
  · decide
  · decide
  · decide
  · decide
  · decide

/-! ### C2, C3: `PlayerTank::move` -/

/-- C2. With `free` the condition "no active wall intersects the candidate 40x40 box at
(x+dx, y+dy), and 40 <= x+dx <= 720, and 40 <= y+dy <= 520": if `free` holds, `move` puts
position and box corner at the candidate; if not, position and box are exactly as before;
for a non-zero delta the new position is the candidate if and only if `free` holds.  The
projectile collection never changes, the box keeps its size, and a box whose top-left is the
position before the call has its top-left at the position after it. -/
theorem move_position (hit : Intersect) (t : PlayerTank) (dx dy : Int) (walls : List Wall) :
    let t' := PlayerTank.move hit t dx dy walls
    let free := (∀ w ∈ walls,
        ¬ (w.active = true ∧ hit ⟨t.x + dx, t.y + dy, 40, 40⟩ w.rect = true))
          ∧ 40 ≤ t.x + dx ∧ t.x + dx ≤ 720 ∧ 40 ≤ t.y + dy ∧ t.y + dy ≤ 520
    (free → t'.x = t.x + dx ∧ t'.y = t.y + dy ∧
        t'.rect = ⟨t.x + dx, t.y + dy, t.rect.w, t.rect.h⟩)
    ∧ (¬ free → t'.x = t.x ∧ t'.y = t.y ∧ t'.rect = t.rect)
    ∧ ((dx ≠ 0 ∨ dy ≠ 0) → ((t'.x = t.x + dx ∧ t'.y = t.y + dy) ↔ free))
    ∧ t'.bullets = t.bullets
    ∧ (t'.rect.w = t.rect.w ∧ t'.rect.h = t.rect.h)
    ∧ (t.rect.x = t.x ∧ t.rect.y = t.y → t'.rect.x = t'.x ∧ t'.rect.y = t'.y) := by
  intro t' free
  have ht' : t' = PlayerTank.move hit t dx dy walls := rfl
  rw [move_eq] at ht'
  clear_value t'
  by_cases hf : free
  · rw [if_pos hf] at ht'
    subst ht'
    refine ⟨fun _ => ⟨rfl, rfl, rfl⟩, fun h => absurd hf h, fun _ => ⟨fun _ => hf, fun _ => ⟨rfl, rfl⟩⟩,
      rfl, ⟨rfl, rfl⟩, fun _ => ⟨rfl, rfl⟩⟩
  · rw [if_neg hf] at ht'
    subst ht'
    refine ⟨fun h => absurd h hf, fun _ => ⟨rfl, rfl, rfl⟩, ?_, rfl, ⟨rfl, rfl⟩, fun h => h⟩
    intro hd
    constructor
    · rintro ⟨hx, hy⟩
      simp only at hx hy
      omega
    · intro h
      exact absurd h hf

/-- C2 at explicit inputs, with the SDL primitive and the generated walls: from (360, 520)
the step (0, -5) is free and taken; from (80, 120) the step (5, 0) runs into the wall at
(120, 120) and from (720, 520) the step (5, 0) leaves the bounds, both are refused. -/
theorem move_position_witness :
    ((PlayerTank.move SDL_HasIntersection (PlayerTank.new 360 520) 0 (-5) wallGrid).x = 360 ∧
     (PlayerTank.move SDL_HasIntersection (PlayerTank.new 360 520) 0 (-5) wallGrid).y = 515 ∧
     (PlayerTank.move SDL_HasIntersection (PlayerTank.new 360 520) 0 (-5) wallGrid).rect
        = ⟨360, 515, 40, 40⟩)
    ∧ ((PlayerTank.move SDL_HasIntersection (PlayerTank.new 80 120) 5 0 wallGrid).x = 80 ∧
       (PlayerTank.move SDL_HasIntersection (PlayerTank.new 80 120) 5 0 wallGrid).y = 120 ∧
       (PlayerTank.move SDL_HasIntersection (PlayerTank.new 80 120) 5 0 wallGrid).rect
        = ⟨80, 120, 40, 40⟩)
    ∧ ((PlayerTank.move SDL_HasIntersection (PlayerTank.new 720 520) 5 0 wallGrid).x = 720 ∧
       (PlayerTank.move SDL_HasIntersection (PlayerTank.new 720 520) 5 0 wallGrid).y = 520 ∧
       (PlayerTank.move SDL_HasIntersection (PlayerTank.new 720 520) 5 0 wallGrid).rect
        = ⟨720, 520, 40, 40⟩)
    ∧ ((PlayerTank.move SDL_HasIntersection (PlayerTank.new 360 520) 0 (-5) wallGrid).rect.x
        = (PlayerTank.move SDL_HasIntersection (PlayerTank.new 360 520) 0 (-5) wallGrid).x ∧
       (PlayerTank.move SDL_HasIntersection (PlayerTank.new 360 520) 0 (-5) wallGrid).rect.y
        = (PlayerTank.move SDL_HasIntersection (PlayerTank.new 360 520) 0 (-5) wallGrid).y) :=
  ⟨(move_position SDL_HasIntersection (PlayerTank.new 360 520) 0 (-5) wallGrid).1 (by decide),
   (move_position SDL_HasIntersection (PlayerTank.new 80 120) 5 0 wallGrid).2.1 (by decide),
   (move_position SDL_HasIntersection (PlayerTank.new 720 520) 5 0 wallGrid).2.1 (by decide),
   (move_position SDL_HasIntersection (PlayerTank.new 360 520) 0 (-5) wallGrid).2.2.2.2.2
      ⟨rfl, rfl⟩⟩

/-- C3. After `move(dx, dy, walls)` the facing direction is exactly (dx, dy): when the move
is accepted, when an active wall blocks it, and when the arena bounds reject it. -/
theorem move_direction (hit : Intersect) (t : PlayerTank) (dx dy : Int) (walls : List Wall) :
    (PlayerTank.move hit t dx dy walls).dirX = dx ∧
    (PlayerTank.move hit t dx dy walls).dirY = dy := by
  by_cases hb : PlayerTank.moveBlocked hit ⟨t.x + dx, t.y + dy, TILE_SIZE, TILE_SIZE⟩ walls = true
  · simp only [PlayerTank.move, hb, if_true, and_self]
  · by_cases hin : t.x + dx ≥ TILE_SIZE ∧ t.x + dx ≤ SCREEN_WIDTH - TILE_SIZE * 2 ∧
        t.y + dy ≥ TILE_SIZE ∧ t.y + dy ≤ SCREEN_HEIGHT - TILE_SIZE * 2
    · simp only [PlayerTank.move, hb, hin, and_self, if_true]
      simp
    · simp only [PlayerTank.move, hb, hin]
      simp

/-! ### C4: the facing direction is the raw step, not its sign -/

set_option maxRecDepth 100000 in
/-- C4. After the Right key, which calls `move(5, 0, walls)`, the facing direction is
(5, 0) in every game, whether the move is accepted or not; the sign pair of that delta is
(1, 0).  In play with the SDL primitive: from the constructed game, Right 8 times and Up 9
times bring the tank to (400, 475), between the walls at (360, 440) and (440, 440); the next
Right has its candidate box (405, 475, 40, 40) intersect the active wall at (440, 440), so
the position stays (400, 475), and the facing direction becomes (5, 0), not (1, 0). -/
theorem move_direction_not_sign :
    (∀ (hit : Intersect) (g : Game),
        (Game.handleEvent hit g (.SDL_KEYDOWN .SDLK_RIGHT)).player.dirX = 5
        ∧ (Game.handleEvent hit g (.SDL_KEYDOWN .SDLK_RIGHT)).player.dirY = 0)
    ∧ (sign 5, sign 0) = (1, 0)
    ∧ Reachable SDL_HasIntersection
        (Game.handleEvents SDL_HasIntersection (Game.new true true true) corridorKeys)
    ∧ ((Game.handleEvents SDL_HasIntersection (Game.new true true true)
          corridorKeys).player.x = 400
      ∧ (Game.handleEvents SDL_HasIntersection (Game.new true true true)
          corridorKeys).player.y = 475)
    ∧ (∃ w ∈ (Game.handleEvents SDL_HasIntersection (Game.new true true true)
          corridorKeys).walls,
        w.active = true ∧ SDL_HasIntersection ⟨400 + 5, 475 + 0, 40, 40⟩ w.rect = true)
    ∧ ((Game.handleEvents SDL_HasIntersection (Game.new true true true)
          (corridorKeys ++ [.SDL_KEYDOWN .SDLK_RIGHT])).player.x = 400
      ∧ (Game.handleEvents SDL_HasIntersection (Game.new true true true)
          (corridorKeys ++ [.SDL_KEYDOWN .SDLK_RIGHT])).player.y = 475)
    ∧ ((Game.handleEvents SDL_HasIntersection (Game.new true true true)
          (corridorKeys ++ [.SDL_KEYDOWN .SDLK_RIGHT])).player.dirX = 5
      ∧ (Game.handleEvents SDL_HasIntersection (Game.new true true true)
          (corridorKeys ++ [.SDL_KEYDOWN .SDLK_RIGHT])).player.dirY = 0)
    ∧ ¬ (((Game.handleEvents SDL_HasIntersection (Game.new true true true)
            (corridorKeys ++ [.SDL_KEYDOWN .SDLK_RIGHT])).player.dirX,
          (Game.handleEvents SDL_HasIntersection (Game.new true true true)
            (corridorKeys ++ [.SDL_KEYDOWN .SDLK_RIGHT])).player.dirY)
        = (sign 5, sign 0)) := by
  refine ⟨?_, by decide, ?_, ?_, ?_, ?_, ?_, ?_⟩
  · intro hit g
    exact move_dir_eq hit g.player 5 0 g.walls
  · exact reachable_handleEvents _ _ _ (Reachable.init true true true)
  all_goals rw [Game_new_eq]
  all_goals decide

/-! ### C5, C6: `PlayerTank::shoot` -/

/-- C5. A tank facing (0, 0) is left unchanged by `shoot`.  Any other tank gets exactly one
projectile appended at the end of its collection and nothing else changes; the new projectile
is active, sits at (x+15, y+15) with a 10x10 box there, whose centre is the centre of the
40x40 box at the tank position, and has velocity (10*dirX, 10*dirY). -/
theorem shoot_spec (t : PlayerTank) :
    (t.dirX = 0 ∧ t.dirY = 0 → PlayerTank.shoot t = t)
    ∧ (¬ (t.dirX = 0 ∧ t.dirY = 0) →
        PlayerTank.shoot t =
          { t with bullets := t.bullets ++
              [{ x := t.x + 15, y := t.y + 15, dx := 10 * t.dirX, dy := 10 * t.dirY,
                 rect := ⟨t.x + 15, t.y + 15, 10, 10⟩, active := true }] }
        ∧ (PlayerTank.shoot t).bullets.length = t.bullets.length + 1
        ∧ (PlayerTank.shoot t).bullets.take t.bullets.length = t.bullets
        ∧ (∀ b, (PlayerTank.shoot t).bullets.getLast? = some b →
            b.active = true ∧ b.x = t.x + 15 ∧ b.y = t.y + 15
            ∧ b.dx = 10 * t.dirX ∧ b.dy = 10 * t.dirY
            ∧ b.rect = ⟨b.x, b.y, 10, 10⟩
            ∧ 2 * b.rect.x + b.rect.w = 2 * t.x + 40
            ∧ 2 * b.rect.y + b.rect.h = 2 * t.y + 40)) := by
  constructor
  · intro h
    simp only [PlayerTank.shoot, h, and_self, if_true]
  · intro h
    have hs : PlayerTank.shoot t =
        { t with bullets := t.bullets ++
            [{ x := t.x + 15, y := t.y + 15, dx := 10 * t.dirX, dy := 10 * t.dirY,
               rect := ⟨t.x + 15, t.y + 15, 10, 10⟩, active := true }] } := by
      have e1 : t.x + Int.tdiv TILE_SIZE 2 - 5 = t.x + 15 := by
        have : Int.tdiv TILE_SIZE 2 = 20 := by decide
        omega
      have e2 : t.y + Int.tdiv TILE_SIZE 2 - 5 = t.y + 15 := by
        have : Int.tdiv TILE_SIZE 2 = 20 := by decide
        omega
      simp only [PlayerTank.shoot, h, if_false, Bullet.new, e1, e2, mul_comm]
    refine ⟨hs, ?_, ?_, ?_⟩
    · rw [hs]; simp
    · rw [hs]; simp
    · intro b hb
      rw [hs] at hb
      simp only [List.getLast?_append, List.getLast?_singleton, Option.or,
        Option.some.injEq] at hb
      subst hb
      refine ⟨rfl, rfl, rfl, rfl, rfl, rfl, ?_, ?_⟩ <;> simp only <;> omega

/-- C5 at explicit tanks: the constructed tank at (360, 520), once with its direction
cleared and once facing (0, -1) as constructed. -/
theorem shoot_spec_witness :
    PlayerTank.shoot { PlayerTank.new 360 520 with dirX := 0, dirY := 0 }
        = { PlayerTank.new 360 520 with dirX := 0, dirY := 0 }
    ∧ PlayerTank.shoot (PlayerTank.new 360 520)
        = { PlayerTank.new 360 520 with bullets :=
              [{ x := 375, y := 535, dx := 0, dy := -10, rect := ⟨375, 535, 10, 10⟩,
                 active := true }] } :=
  ⟨(shoot_spec { PlayerTank.new 360 520 with dirX := 0, dirY := 0 }).1 ⟨rfl, rfl⟩,
   ((shoot_spec (PlayerTank.new 360 520)).2 (by decide)).1⟩

/-- C6, as the code has it.  A tank at (380, 480) facing (0, -1), whatever its box and the
projectiles it already owns: `shoot` appends a projectile at (395, 495) with velocity
(0, -10), and one `updateBullets` later that projectile is last in the collection, still
active, at (395, 485). -/
theorem shoot_scenario (rect : SDL_Rect) (bullets : List Bullet) :
    (PlayerTank.shoot ⟨380, 480, 0, -1, rect, bullets⟩).bullets =
        bullets ++ [{ x := 395, y := 495, dx := 0, dy := -10, rect := ⟨395, 495, 10, 10⟩,
                      active := true }]
    ∧ (PlayerTank.updateBullets (PlayerTank.shoot ⟨380, 480, 0, -1, rect, bullets⟩)).bullets =
        (PlayerTank.updateBullets ⟨380, 480, 0, -1, rect, bullets⟩).bullets ++
          [{ x := 395, y := 485, dx := 0, dy := -10, rect := ⟨395, 485, 10, 10⟩,
             active := true }] := by
  have hs : (PlayerTank.shoot ⟨380, 480, 0, -1, rect, bullets⟩).bullets =
      bullets ++ [{ x := 395, y := 495, dx := 0, dy := -10, rect := ⟨395, 495, 10, 10⟩,
                    active := true }] := by
    simp [PlayerTank.shoot, Bullet.new, Int.tdiv]
  refine ⟨hs, ?_⟩
  rw [updateBullets_bullets, updateBullets_bullets, hs, List.map_append, List.filter_append]
  congr 1

/-- C6, as the spec has it, fails on the tank at (380, 480) facing (0, -1) with box
(380, 480, 40, 40) and no projectiles: it is not the case that `shoot` creates a projectile
at (415, 475) with velocity (0, -10) that one tick later is at (415, 465). -/
theorem shoot_scenario_spec_fails :
    ¬ ((PlayerTank.shoot ⟨380, 480, 0, -1, ⟨380, 480, 40, 40⟩, []⟩).bullets.map
          (fun b => (b.x, b.y, b.dx, b.dy)) = [(415, 475, 0, -10)]
        ∧ (PlayerTank.updateBullets
            (PlayerTank.shoot ⟨380, 480, 0, -1, ⟨380, 480, 40, 40⟩, []⟩)).bullets.map
          (fun b => (b.x, b.y)) = [(415, 465)]) := by
  decide

/-! ### C7: projectile speed after the tank has moved -/

/-- C7. Starting the constructed game and polling Up then Fire in the first pass of the
game loop gives a reachable state whose only projectile has velocity (0, -50): it moved from
(375, 530) to (375, 480) in the one `update()` of that pass. -/
theorem fired_after_move_velocity :
    Reachable SDL_HasIntersection
        (Game.runIteration SDL_HasIntersection (Game.new true true true)
          [.SDL_KEYDOWN .SDLK_UP, .SDL_KEYDOWN .SDLK_SPACE])
    ∧ (Game.handleEvents SDL_HasIntersection (Game.new true true true)
          [.SDL_KEYDOWN .SDLK_UP, .SDL_KEYDOWN .SDLK_SPACE]).player.bullets.map
        (fun b => (b.x, b.y, b.dx, b.dy)) = [(375, 530, 0, -50)]
    ∧ (Game.runIteration SDL_HasIntersection (Game.new true true true)
          [.SDL_KEYDOWN .SDLK_UP, .SDL_KEYDOWN .SDLK_SPACE]).player.bullets.map
        (fun b => (b.x, b.y, b.dx, b.dy)) = [(375, 480, 0, -50)] := by
  refine ⟨?_, ?_, ?_⟩
  · exact reachable_runIteration _ _ _ (Reachable.init true true true)
  · rw [Game_new_eq]
    decide
  · rw [Game_new_eq]
    decide

/-! ### C8, C9: `PlayerTank::updateBullets` -/

/-- C8. `updateBullets` leaves exactly the collection obtained by applying `Bullet::move`
to every projectile and keeping, in their original relative order, those that are active
after advancing.  The result is a sublist of the advanced collection (nothing is duplicated,
reordered or invented), each advanced projectile occurs as often as before if it is active
and not at all otherwise, the length does not grow, and the rest of the tank is untouched. -/
theorem updateBullets_spec (t : PlayerTank) :
    (PlayerTank.updateBullets t).bullets =
        (t.bullets.map Bullet.move).filter (fun b => b.active)
    ∧ List.Sublist (PlayerTank.updateBullets t).bullets (t.bullets.map Bullet.move)
    ∧ (∀ b : Bullet, (PlayerTank.updateBullets t).bullets.count b =
          if b.active = true then (t.bullets.map Bullet.move).count b else 0)
    ∧ (PlayerTank.updateBullets t).bullets.length ≤ t.bullets.length
    ∧ (PlayerTank.updateBullets t).x = t.x ∧ (PlayerTank.updateBullets t).y = t.y
    ∧ (PlayerTank.updateBullets t).dirX = t.dirX ∧ (PlayerTank.updateBullets t).dirY = t.dirY
    ∧ (PlayerTank.updateBullets t).rect = t.rect := by
  refine ⟨updateBullets_bullets t, ?_, ?_, ?_, rfl, rfl, rfl, rfl, rfl⟩
  · rw [updateBullets_bullets]
    exact List.filter_sublist _
  · intro b
    rw [updateBullets_bullets]
    by_cases hb : b.active = true
    · rw [if_pos hb]
      exact List.count_filter (by simpa using hb)
    · rw [if_neg hb, List.count_eq_zero, List.mem_filter]
      exact fun h => hb h.2
  · rw [updateBullets_bullets]
    calc ((t.bullets.map Bullet.move).filter (fun b => b.active)).length
        ≤ (t.bullets.map Bullet.move).length := List.length_filter_le _ _
      _ = t.bullets.length := List.length_map _ _

/-- C9. After `updateBullets` every projectile left in the collection is active and has
40 <= x <= 760 and 40 <= y <= 560; and a projectile whose advanced position is outside
those bounds is inactive once advanced and is not in the collection after the call. -/
theorem updateBullets_in_bounds (t : PlayerTank) :
    (∀ b ∈ (PlayerTank.updateBullets t).bullets,
        b.active = true ∧ 40 ≤ b.x ∧ b.x ≤ 760 ∧ 40 ≤ b.y ∧ b.y ≤ 560)
    ∧ (∀ b ∈ t.bullets,
        (b.x + b.dx < 40 ∨ b.x + b.dx > 760 ∨ b.y + b.dy < 40 ∨ b.y + b.dy > 560) →
          (Bullet.move b).active = false
          ∧ Bullet.move b ∉ (PlayerTank.updateBullets t).bullets) := by
  constructor
  · intro b hb
    rw [updateBullets_bullets, List.mem_filter, List.mem_map] at hb
    obtain ⟨⟨a, -, rfl⟩, hact⟩ := hb
    rw [Bullet_move_eq] at hact ⊢
    simp only at hact ⊢
    by_cases hout : a.x + a.dx < 40 ∨ a.x + a.dx > 760 ∨ a.y + a.dy < 40 ∨ a.y + a.dy > 560
    · simp [hout] at hact
    · refine ⟨hact, ?_⟩
      omega
  · intro b _ hout
    have hinact : (Bullet.move b).active = false := by
      rw [Bullet_move_eq]
      simp only [hout, if_true]
    refine ⟨hinact, ?_⟩
    rw [updateBullets_bullets, List.mem_filter]
    rintro ⟨-, hact⟩
    rw [hinact] at hact
    exact Bool.false_ne_true hact

/-- C9 on the sample tank: the projectile advanced to (510, 300) stays, active and inside
the bounds; the one advanced from (395, 45) to (395, 35) is inactive and gone. -/
theorem updateBullets_in_bounds_witness :
    ((Bullet.move (Bullet.new 500 300 1 0)).active = true
      ∧ 40 ≤ (Bullet.move (Bullet.new 500 300 1 0)).x
      ∧ (Bullet.move (Bullet.new 500 300 1 0)).x ≤ 760
      ∧ 40 ≤ (Bullet.move (Bullet.new 500 300 1 0)).y
      ∧ (Bullet.move (Bullet.new 500 300 1 0)).y ≤ 560)
    ∧ ((Bullet.move (Bullet.new 395 45 0 (-1))).active = false
      ∧ Bullet.move (Bullet.new 395 45 0 (-1)) ∉ (PlayerTank.updateBullets sampleTank).bullets) :=
  ⟨(updateBullets_in_bounds sampleTank).1 (Bullet.move (Bullet.new 500 300 1 0)) (by decide),
   (updateBullets_in_bounds sampleTank).2 (Bullet.new 395 45 0 (-1)) (by decide) (by decide)⟩

/-! ### C10: collision resolution in `Game::update` -/

/-- C10. For each projectile the wall scan does this: if some active wall intersects the
box of the projectile, the store splits as `pre ++ w :: post` with `w` active and
intersecting and no wall of `pre` both active and intersecting, and the scan clears the flag
of `w` and of the projectile and changes nothing else; if no active wall intersects it, walls
and projectile are unchanged.  The collision phase takes the projectiles in collection
order, each against the walls as the earlier ones left them, and `update` is
`updateBullets` followed by that phase.  So a tick changes walls only by clearing flags and
clears at most one per projectile that survived advancement. -/
theorem collision_first_wall (hit : Intersect) :
    (∀ (b : Bullet) (walls : List Wall),
      ((∃ w ∈ walls, w.active = true ∧ hit b.rect w.rect = true) →
        ∃ pre w post, walls = pre ++ w :: post
          ∧ (∀ v ∈ pre, ¬ (v.active = true ∧ hit b.rect v.rect = true))
          ∧ w.active = true ∧ hit b.rect w.rect = true
          ∧ Game.hitScan hit b walls =
              (pre ++ { w with active := false } :: post, { b with active := false })
          ∧ activeWalls (Game.hitScan hit b walls).1 + 1 = activeWalls walls)
      ∧ ((∀ w ∈ walls, ¬ (w.active = true ∧ hit b.rect w.rect = true)) →
          Game.hitScan hit b walls = (walls, b)))
    ∧ (∀ walls : List Wall, Game.collide hit [] walls = ([], walls))
    ∧ (∀ (b : Bullet) (bs : List Bullet) (walls : List Wall),
        Game.collide hit (b :: bs) walls =
          ((Game.hitScan hit b walls).2 ::
              (Game.collide hit bs (Game.hitScan hit b walls).1).1,
            (Game.collide hit bs (Game.hitScan hit b walls).1).2))
    ∧ (∀ (bs : List Bullet) (b : Bullet) (walls : List Wall),
        Game.collide hit (bs ++ [b]) walls =
          ((Game.collide hit bs walls).1 ++
              [(Game.hitScan hit b (Game.collide hit bs walls).2).2],
            (Game.hitScan hit b (Game.collide hit bs walls).2).1))
    ∧ (∀ g : Game,
        (Game.update hit g).player.bullets =
            (Game.collide hit (PlayerTank.updateBullets g.player).bullets g.walls).1
        ∧ (Game.update hit g).walls =
            (Game.collide hit (PlayerTank.updateBullets g.player).bullets g.walls).2)
    ∧ (∀ (bs : List Bullet) (walls : List Wall),
        List.Forall₂ Wall.clearedFrom (Game.collide hit bs walls).2 walls
        ∧ activeWalls walls ≤ activeWalls (Game.collide hit bs walls).2 + bs.length)
    ∧ (∀ g : Game,
        List.Forall₂ Wall.clearedFrom (Game.update hit g).walls g.walls
        ∧ activeWalls g.walls ≤
            activeWalls (Game.update hit g).walls
              + (PlayerTank.updateBullets g.player).bullets.length) := by
  refine ⟨?_, fun _ => rfl, fun _ _ _ => rfl, ?_, fun _ => ⟨rfl, rfl⟩, ?_, ?_⟩
  · intro b walls
    constructor
    · intro h
      obtain ⟨pre, w, post, hsplit, hpre, hact, hhit⟩ := first_hit_split hit b walls h
      refine ⟨pre, w, post, hsplit, hpre, hact, hhit, ?_, ?_⟩
      · rw [hsplit]
        exact hitScan_first hit b pre w post hpre hact hhit
      · rw [hsplit, hitScan_first hit b pre w post hpre hact hhit]
        exact activeWalls_clear_one pre w post hact
    · exact hitScan_none hit b walls
  · intro bs b walls
    exact collide_append_singleton hit b bs walls
  · intro bs walls
    exact ⟨collide_clearedFrom hit bs walls, activeWalls_collide hit bs walls⟩
  · intro g
    exact ⟨collide_clearedFrom hit _ g.walls, activeWalls_collide hit _ g.walls⟩

/-- C10 on the sample walls with the SDL primitive: the projectile box (130, 130, 10, 10)
lies inside both active walls at (120, 120) and (125, 125) and inside the inactive one; the
scan clears the active wall at (120, 120), third in storage order, and the projectile.  The
projectile box (500, 300, 10, 10) meets no wall and nothing changes. -/
theorem collision_first_wall_witness :
    (∃ pre w post, sampleWalls = pre ++ w :: post
        ∧ (∀ v ∈ pre, ¬ (v.active = true ∧
              SDL_HasIntersection (Bullet.new 130 130 0 (-1)).rect v.rect = true))
        ∧ w.active = true
        ∧ SDL_HasIntersection (Bullet.new 130 130 0 (-1)).rect w.rect = true
        ∧ Game.hitScan SDL_HasIntersection (Bullet.new 130 130 0 (-1)) sampleWalls =
            (pre ++ { w with active := false } :: post,
              { Bullet.new 130 130 0 (-1) with active := false })
        ∧ activeWalls (Game.hitScan SDL_HasIntersection (Bullet.new 130 130 0 (-1))
              sampleWalls).1 + 1 = activeWalls sampleWalls)
    ∧ Game.hitScan SDL_HasIntersection (Bullet.new 500 300 1 0) sampleWalls =
        (sampleWalls, Bullet.new 500 300 1 0)
    ∧ Game.hitScan SDL_HasIntersection (Bullet.new 130 130 0 (-1)) sampleWalls =
        ([Wall.new 200 120, { Wall.new 120 120 with active := false },
          { Wall.new 120 120 with active := false }, Wall.new 125 125],
         { Bullet.new 130 130 0 (-1) with active := false }) :=
  ⟨((collision_first_wall SDL_HasIntersection).1 (Bullet.new 130 130 0 (-1)) sampleWalls).1
      (by decide),
   ((collision_first_wall SDL_HasIntersection).1 (Bullet.new 500 300 1 0) sampleWalls).2
      (by decide),
   by decide⟩

/-! ### C15, C16: `Bullet::move` -/

/-- C16. `Bullet::move` puts the position at (x+dx, y+dy) and the top-left of the box at
the new position, keeps the size of the box (so a 10x10 box stays a 10x10 box), keeps the
velocity, clears `active` when the new position has x < 40, x > 760, y < 40 or y > 560 and
otherwise leaves the flag as it was; it never sets the flag. -/
theorem Bullet_move_spec (b : Bullet) :
    (Bullet.move b).x = b.x + b.dx ∧ (Bullet.move b).y = b.y + b.dy
    ∧ (Bullet.move b).rect = ⟨b.x + b.dx, b.y + b.dy, b.rect.w, b.rect.h⟩
    ∧ ((Bullet.move b).rect.x = (Bullet.move b).x ∧ (Bullet.move b).rect.y = (Bullet.move b).y)
    ∧ (b.rect.w = 10 ∧ b.rect.h = 10 →
        (Bullet.move b).rect = ⟨(Bullet.move b).x, (Bullet.move b).y, 10, 10⟩)
    ∧ ((Bullet.move b).dx = b.dx ∧ (Bullet.move b).dy = b.dy)
    ∧ ((b.x + b.dx < 40 ∨ b.x + b.dx > 760 ∨ b.y + b.dy < 40 ∨ b.y + b.dy > 560) →
        (Bullet.move b).active = false)
    ∧ (¬ (b.x + b.dx < 40 ∨ b.x + b.dx > 760 ∨ b.y + b.dy < 40 ∨ b.y + b.dy > 560) →
        (Bullet.move b).active = b.active)
    ∧ ((Bullet.move b).active = true → b.active = true) := by
  rw [Bullet_move_eq]
  refine ⟨rfl, rfl, rfl, ⟨rfl, rfl⟩, ?_, ⟨rfl, rfl⟩, ?_, ?_, ?_⟩
  · rintro ⟨hw, hh⟩
    simp only [hw, hh]
  · intro h
    simp only [h, if_true]
  · intro h
    simp only [h, if_false]
  · intro h
    by_cases hout : b.x + b.dx < 40 ∨ b.x + b.dx > 760 ∨ b.y + b.dy < 40 ∨ b.y + b.dy > 560
    · simp only [hout, if_true] at h
      exact absurd h Bool.false_ne_true
    · simpa only [hout, if_false] using h

/-- C16 on two constructed projectiles: from (395, 45) with velocity (0, -10) the new
position (395, 35) is out and the flag is cleared; from (500, 300) with velocity (10, 0)
the new position is in, the flag is kept, and the box is the 10x10 square at (510, 300). -/
theorem Bullet_move_spec_witness :
    (Bullet.move (Bullet.new 395 45 0 (-1))).active = false
    ∧ (Bullet.move (Bullet.new 500 300 1 0)).active = (Bullet.new 500 300 1 0).active
    ∧ (Bullet.move (Bullet.new 500 300 1 0)).rect =
        ⟨(Bullet.move (Bullet.new 500 300 1 0)).x, (Bullet.move (Bullet.new 500 300 1 0)).y,
          10, 10⟩
    ∧ (Bullet.new 500 300 1 0).active = true :=
  ⟨(Bullet_move_spec (Bullet.new 395 45 0 (-1))).2.2.2.2.2.2.1 (by decide),
   (Bullet_move_spec (Bullet.new 500 300 1 0)).2.2.2.2.2.2.2.1 (by decide),
   (Bullet_move_spec (Bullet.new 500 300 1 0)).2.2.2.2.1 ⟨rfl, rfl⟩,
   (Bullet_move_spec (Bullet.new 500 300 1 0)).2.2.2.2.2.2.2.2 (by decide)⟩

/-- C15, as the code has it.  After `Bullet::move` a projectile that is still active has
its position, the top-left corner of its box, inside 40 <= x <= 760, 40 <= y <= 560, so a
10x10 box lies inside [40, 770] x [40, 570]; a projectile whose position is outside that
region is inactive.  The region is the one the box of the tank occupies: a tank position
that `move` accepts puts the 40x40 box at that position inside [40, 760] x [40, 560]. -/
theorem Bullet_move_active_bounds (b : Bullet) :
    ((Bullet.move b).active = true →
        40 ≤ (Bullet.move b).x ∧ (Bullet.move b).x ≤ 760
        ∧ 40 ≤ (Bullet.move b).y ∧ (Bullet.move b).y ≤ 560)
    ∧ ((Bullet.move b).active = true → b.rect.w = 10 → b.rect.h = 10 →
        40 ≤ (Bullet.move b).rect.x ∧ (Bullet.move b).rect.x + (Bullet.move b).rect.w ≤ 770
        ∧ 40 ≤ (Bullet.move b).rect.y
        ∧ (Bullet.move b).rect.y + (Bullet.move b).rect.h ≤ 570)
    ∧ (¬ (40 ≤ (Bullet.move b).x ∧ (Bullet.move b).x ≤ 760
          ∧ 40 ≤ (Bullet.move b).y ∧ (Bullet.move b).y ≤ 560) →
        (Bullet.move b).active = false)
    ∧ (∀ (hit : Intersect) (t : PlayerTank) (dx dy : Int) (walls : List Wall),
        ((PlayerTank.move hit t dx dy walls).x ≠ t.x
          ∨ (PlayerTank.move hit t dx dy walls).y ≠ t.y) →
        40 ≤ (PlayerTank.move hit t dx dy walls).x
        ∧ (PlayerTank.move hit t dx dy walls).x + 40 ≤ 760
        ∧ 40 ≤ (PlayerTank.move hit t dx dy walls).y
        ∧ (PlayerTank.move hit t dx dy walls).y + 40 ≤ 560) := by
  have key : (Bullet.move b).active = true →
      40 ≤ b.x + b.dx ∧ b.x + b.dx ≤ 760 ∧ 40 ≤ b.y + b.dy ∧ b.y + b.dy ≤ 560 := by
    rw [Bullet_move_eq]
    intro h
    by_cases hout : b.x + b.dx < 40 ∨ b.x + b.dx > 760 ∨ b.y + b.dy < 40 ∨ b.y + b.dy > 560
    · simp only [hout, if_true] at h
      exact absurd h Bool.false_ne_true
    · omega
  have hx : (Bullet.move b).x = b.x + b.dx := by rw [Bullet_move_eq]
  have hy : (Bullet.move b).y = b.y + b.dy := by rw [Bullet_move_eq]
  have hr : (Bullet.move b).rect = ⟨b.x + b.dx, b.y + b.dy, b.rect.w, b.rect.h⟩ := by
    rw [Bullet_move_eq]
  refine ⟨?_, ?_, ?_, ?_⟩
  · intro h
    rw [hx, hy]
    exact key h
  · intro h hw hh
    have hk := key h
    rw [hr]
    simp only [hw, hh]
    omega
  · intro h
    rw [hx, hy] at h
    by_cases hact : (Bullet.move b).active = true
    · exact absurd (key hact) h
    · simpa using hact
  · intro hit t dx dy walls hne
    rw [move_eq] at hne ⊢
    split at hne
    · next hfree =>
      rw [if_pos hfree]
      simp only
      omega
    · next hfree =>
      simp only [ne_eq, not_true_eq_false, or_self] at hne

/-- C15 on the projectile constructed at (500, 300) with direction (1, 0): it stays active
and in the region; and on the tank constructed at (360, 520) stepping by (0, -5). -/
theorem Bullet_move_active_bounds_witness :
    (40 ≤ (Bullet.move (Bullet.new 500 300 1 0)).x
      ∧ (Bullet.move (Bullet.new 500 300 1 0)).x ≤ 760
      ∧ 40 ≤ (Bullet.move (Bullet.new 500 300 1 0)).y
      ∧ (Bullet.move (Bullet.new 500 300 1 0)).y ≤ 560)
    ∧ (40 ≤ (Bullet.move (Bullet.new 500 300 1 0)).rect.x
      ∧ (Bullet.move (Bullet.new 500 300 1 0)).rect.x
          + (Bullet.move (Bullet.new 500 300 1 0)).rect.w ≤ 770
      ∧ 40 ≤ (Bullet.move (Bullet.new 500 300 1 0)).rect.y
      ∧ (Bullet.move (Bullet.new 500 300 1 0)).rect.y
          + (Bullet.move (Bullet.new 500 300 1 0)).rect.h ≤ 570)
    ∧ (Bullet.move (Bullet.new 395 45 0 (-1))).active = false
    ∧ (40 ≤ (PlayerTank.move SDL_HasIntersection (PlayerTank.new 360 520) 0 (-5) wallGrid).x
      ∧ (PlayerTank.move SDL_HasIntersection (PlayerTank.new 360 520) 0 (-5) wallGrid).x + 40
          ≤ 760
      ∧ 40 ≤ (PlayerTank.move SDL_HasIntersection (PlayerTank.new 360 520) 0 (-5) wallGrid).y
      ∧ (PlayerTank.move SDL_HasIntersection (PlayerTank.new 360 520) 0 (-5) wallGrid).y + 40
          ≤ 560) :=
  ⟨(Bullet_move_active_bounds (Bullet.new 500 300 1 0)).1 (by decide),
   (Bullet_move_active_bounds (Bullet.new 500 300 1 0)).2.1 (by decide) rfl rfl,
   (Bullet_move_active_bounds (Bullet.new 395 45 0 (-1))).2.2.1 (by decide),
   (Bullet_move_active_bounds (Bullet.new 500 300 1 0)).2.2.2 SDL_HasIntersection
      (PlayerTank.new 360 520) 0 (-5) wallGrid (by decide)⟩

/-- C15, as the spec has it, fails on the projectile a tank at (695, 285) facing (5, 0)
fires, constructed at (710, 300) with velocity (50, 0): after `Bullet::move` it is active at
(760, 300), and its 10x10 box reaches x = 770, outside 40 <= x <= 760. -/
theorem Bullet_move_box_leaves_region :
    (Bullet.move (Bullet.new 710 300 5 0)).active = true
    ∧ (Bullet.move (Bullet.new 710 300 5 0)).rect = ⟨760, 300, 10, 10⟩
    ∧ ¬ ((Bullet.move (Bullet.new 710 300 5 0)).rect.x
          + (Bullet.move (Bullet.new 710 300 5 0)).rect.w ≤ 760) := by
  decide

/-! ### C11: inactive walls take no part in collisions -/

/-- C11. `move` returns the same tank, and `update` the same tank with the same projectile
collection and the same active walls in the same order, when the inactive walls are removed
from the wall store beforehand, and also when the wall store is replaced by one that agrees
with it on the active walls place by place while its inactive walls are changed at will. -/
theorem inactive_walls_no_influence (hit : Intersect) :
    (∀ (t : PlayerTank) (dx dy : Int) (walls : List Wall),
        PlayerTank.move hit t dx dy (walls.filter (fun w => w.active))
          = PlayerTank.move hit t dx dy walls)
    ∧ (∀ (t : PlayerTank) (dx dy : Int) (walls walls' : List Wall),
        List.Forall₂ Wall.agreesWhenActive walls walls' →
          PlayerTank.move hit t dx dy walls' = PlayerTank.move hit t dx dy walls)
    ∧ (∀ g : Game,
        (Game.update hit { g with walls := g.walls.filter (fun w => w.active) }).player
          = (Game.update hit g).player
        ∧ (Game.update hit
              { g with walls := g.walls.filter (fun w => w.active) }).walls.filter
              (fun w => w.active)
            = (Game.update hit g).walls.filter (fun w => w.active))
    ∧ (∀ (g : Game) (walls' : List Wall),
        List.Forall₂ Wall.agreesWhenActive g.walls walls' →
          (Game.update hit { g with walls := walls' }).player = (Game.update hit g).player
          ∧ (Game.update hit { g with walls := walls' }).walls.filter (fun w => w.active)
              = (Game.update hit g).walls.filter (fun w => w.active)) := by
  have hupd : ∀ (g : Game) (walls' : List Wall),
      walls'.filter (fun w => w.active) = g.walls.filter (fun w => w.active) →
        (Game.update hit { g with walls := walls' }).player = (Game.update hit g).player
        ∧ (Game.update hit { g with walls := walls' }).walls.filter (fun w => w.active)
            = (Game.update hit g).walls.filter (fun w => w.active) := by
    intro g walls' h
    obtain ⟨h1, h2⟩ :=
      collide_congr_active hit (PlayerTank.updateBullets g.player).bullets g.walls walls' h
    constructor
    · simp only [Game.update, h1]
    · simpa only [Game.update] using h2
  refine ⟨?_, ?_, ?_, ?_⟩
  · intro t dx dy walls
    exact move_congr_active hit t dx dy walls _ (by rw [List.filter_filter]; simp)
  · intro t dx dy walls walls' h
    exact move_congr_active hit t dx dy walls walls' (filter_eq_of_agreesWhenActive h)
  · intro g
    exact hupd g _ (by rw [List.filter_filter]; simp)
  · intro g walls' h
    exact hupd g walls' (filter_eq_of_agreesWhenActive h)

/-- C11 on the sample game with the SDL primitive: taking the inactive wall from
(120, 120) to (700, 500) changes neither the result of `move(5, 0)` for the tank constructed
at (80, 125) nor the tank and the active walls after `update`. -/
theorem inactive_walls_no_influence_witness :
    PlayerTank.move SDL_HasIntersection (PlayerTank.new 80 125) 5 0 sampleWallsMoved
        = PlayerTank.move SDL_HasIntersection (PlayerTank.new 80 125) 5 0 sampleWalls
    ∧ (Game.update SDL_HasIntersection { sampleGame with walls := sampleWallsMoved }).player
        = (Game.update SDL_HasIntersection sampleGame).player
    ∧ (Game.update SDL_HasIntersection
          { sampleGame with walls := sampleWallsMoved }).walls.filter (fun w => w.active)
        = (Game.update SDL_HasIntersection sampleGame).walls.filter (fun w => w.active) :=
  have hrel : List.Forall₂ Wall.agreesWhenActive sampleWalls sampleWallsMoved :=
    List.Forall₂.cons ⟨rfl, fun _ => rfl⟩
      (List.Forall₂.cons ⟨rfl, fun h => absurd h (by decide)⟩
        (List.Forall₂.cons ⟨rfl, fun _ => rfl⟩
          (List.Forall₂.cons ⟨rfl, fun _ => rfl⟩ List.Forall₂.nil)))
  ⟨(inactive_walls_no_influence SDL_HasIntersection).2.1 (PlayerTank.new 80 125) 5 0
      sampleWalls sampleWallsMoved hrel,
   ((inactive_walls_no_influence SDL_HasIntersection).2.2.2 sampleGame sampleWallsMoved
      hrel).1,
   ((inactive_walls_no_influence SDL_HasIntersection).2.2.2 sampleGame sampleWallsMoved
      hrel).2⟩

/-! ### C13: walls are only ever deactivated -/

/-- C13. `update` leaves the wall store with the same length and the same walls at the
same places in the same order, each wall after it being the wall before it with at most its
flag cleared, so a wall that is inactive before is inactive after.  A key event, and a
whole queue of events, changes no wall at all.  `update` changes neither the position of the
tank, nor its facing direction, nor its box, nor the `running` flag. -/
theorem walls_only_deactivated (hit : Intersect) (g : Game) :
    ((Game.update hit g).walls.length = g.walls.length
      ∧ (Game.update hit g).walls.map (fun w => (w.x, w.y, w.rect))
          = g.walls.map (fun w => (w.x, w.y, w.rect))
      ∧ List.Forall₂ Wall.clearedFrom (Game.update hit g).walls g.walls
      ∧ (∀ (i : Nat) (w w' : Wall),
          g.walls[i]? = some w → (Game.update hit g).walls[i]? = some w' →
            w'.x = w.x ∧ w'.y = w.y ∧ w'.rect = w.rect
            ∧ (w.active = false → w'.active = false)))
    ∧ (∀ e : SDL_Event, (Game.handleEvent hit g e).walls = g.walls)
    ∧ (∀ events : List SDL_Event, (Game.handleEvents hit g events).walls = g.walls)
    ∧ ((Game.update hit g).player.x = g.player.x
      ∧ (Game.update hit g).player.y = g.player.y
      ∧ (Game.update hit g).player.dirX = g.player.dirX
      ∧ (Game.update hit g).player.dirY = g.player.dirY
      ∧ (Game.update hit g).player.rect = g.player.rect)
    ∧ (Game.update hit g).running = g.running := by
  have hrel : List.Forall₂ Wall.clearedFrom (Game.update hit g).walls g.walls :=
    collide_clearedFrom hit _ g.walls
  refine ⟨⟨hrel.length_eq, clearedFrom_places hrel, hrel, ?_⟩, handleEvent_walls hit g,
    fun events => handleEvents_walls hit events g, ⟨rfl, rfl, rfl, rfl, rfl⟩, rfl⟩
  intro i w w' hw hw'
  obtain ⟨hx, hy, hr, hact⟩ := clearedFrom_index hrel i w w' hw hw'
  refine ⟨hx, hy, hr, fun hf => ?_⟩
  cases hq : w'.active with
  | false => rfl
  | true => rw [hact hq] at hf; exact absurd hf (by decide)

/-- C13 on the sample game with the SDL primitive: the wall at index 1, inactive at
(120, 120) before `update`, is the same wall after it; the wall at index 2, active at
(120, 120) before, stands at the same place after, now inactive. -/
theorem walls_only_deactivated_witness :
    (({ Wall.new 120 120 with active := false } : Wall).x = 120
      ∧ ({ Wall.new 120 120 with active := false } : Wall).y = 120
      ∧ ({ Wall.new 120 120 with active := false } : Wall).rect = ⟨120, 120, 40, 40⟩
      ∧ (({ Wall.new 120 120 with active := false } : Wall).active = false →
          ({ Wall.new 120 120 with active := false } : Wall).active = false))
    ∧ (Game.update SDL_HasIntersection sampleGame).walls[2]?
        = some { Wall.new 120 120 with active := false }
    ∧ sampleGame.walls[2]? = some (Wall.new 120 120) :=
  ⟨(walls_only_deactivated SDL_HasIntersection sampleGame).1.2.2.2 1
      { Wall.new 120 120 with active := false } { Wall.new 120 120 with active := false }
      (by decide) (by decide),
   by decide, by decide⟩

/-! ### C12: a projectile keeps its velocity -/

/-- C12. `Bullet::move`, any number of times, and the wall scan of `update` return the
projectile with the velocity it had.  After `update` the projectiles in the collection are,
in order, the ones that were active once advanced, each with the velocity it had before.  An
event leaves the projectiles the tank has as they are and puts at most one new one behind
them.  So after any sequence of events and ticks the velocities in the collection are, in
order, among the velocities the collection started with followed by the velocities with
which the projectiles fired on the way were created. -/
theorem velocity_constant (hit : Intersect) :
    (∀ b : Bullet, Bullet.velocity (Bullet.move b) = Bullet.velocity b)
    ∧ (∀ (n : Nat) (b : Bullet), Bullet.velocity (Nat.iterate Bullet.move n b) = Bullet.velocity b)
    ∧ (∀ (b : Bullet) (walls : List Wall),
        Bullet.velocity (Game.hitScan hit b walls).2 = Bullet.velocity b)
    ∧ (∀ g : Game,
        (Game.update hit g).player.bullets.map Bullet.velocity =
          (g.player.bullets.filter (fun b => (Bullet.move b).active)).map Bullet.velocity)
    ∧ (∀ (g : Game) (e : SDL_Event),
        (Game.handleEvent hit g e).player.bullets =
            g.player.bullets ++
              (Game.handleEvent hit g e).player.bullets.drop g.player.bullets.length
        ∧ ((Game.handleEvent hit g e).player.bullets.drop g.player.bullets.length).length ≤ 1)
    ∧ (∀ (steps : List Step) (g : Game),
        List.Sublist ((Game.steps hit g steps).player.bullets.map Bullet.velocity)
          (g.player.bullets.map Bullet.velocity ++ Game.firedVelocities hit g steps)) := by
  refine ⟨Bullet_move_velocity, ?_, ?_, update_velocities hit, ?_, ?_⟩
  · intro n b
    induction n with
    | zero => rfl
    | succ n ih => rw [Function.iterate_succ_apply', Bullet_move_velocity, ih]
  · intro b walls
    obtain ⟨-, -, hdx, hdy, -⟩ := hitScan_snd_fields hit b walls
    simp only [Bullet.velocity, hdx, hdy]
  · intro g e
    refine ⟨handleEvent_bullets_split hit g e, ?_⟩
    rcases handleEvent_bullets hit g e with h | h
    · rw [h]; simp
    · rw [h]; simp
  · intro steps
    induction steps with
    | nil =>
      intro g
      simp only [Game.steps, Game.firedVelocities, List.append_nil]
      exact List.Sublist.refl _
    | cons s rest ih =>
      intro g
      cases s with
      | tick =>
        have h1 := ih (Game.update hit g)
        have h2 : List.Sublist ((Game.update hit g).player.bullets.map Bullet.velocity)
            (g.player.bullets.map Bullet.velocity) := by
          rw [update_velocities]
          exact (List.filter_sublist _).map _
        exact h1.trans (h2.append (List.Sublist.refl _))
      | event e =>
        have h1 := ih (Game.handleEvent hit g e)
        have h2 := handleEvent_bullets_split hit g e
        simp only [Game.steps, Game.step, Game.firedVelocities]
        rw [← List.append_assoc, ← List.map_append, ← h2]
        exact h1

/-! ### C19: walls and projectiles go in pairs -/

/-- C19. For every game, the number of walls active before `update` and inactive after it
equals the number of inactive projectiles in the collection after that `update`; it is at
most the number of projectiles that survived advancement, which is the length of the
collection after `update`; and together with the walls still active it makes up the walls
that were active. -/
theorem walls_and_projectiles_in_pairs (hit : Intersect) (g : Game) :
    deactivatedWalls g.walls (Game.update hit g).walls
        = (Game.update hit g).player.bullets.countP (fun b => !b.active)
    ∧ deactivatedWalls g.walls (Game.update hit g).walls
        ≤ ((g.player.bullets.map Bullet.move).filter (fun b => b.active)).length
    ∧ (Game.update hit g).player.bullets.length
        = ((g.player.bullets.map Bullet.move).filter (fun b => b.active)).length
    ∧ deactivatedWalls g.walls (Game.update hit g).walls
          + activeWalls (Game.update hit g).walls
        = activeWalls g.walls := by
  have hrel : List.Forall₂ Wall.clearedFrom (Game.update hit g).walls g.walls :=
    collide_clearedFrom hit _ g.walls
  have hadd := deactivatedWalls_add hrel
  have hpairs : activeWalls (Game.update hit g).walls
      + (Game.update hit g).player.bullets.countP (fun c => !c.active) = activeWalls g.walls :=
    collide_pairs hit (PlayerTank.updateBullets g.player).bullets g.walls
      (updateBullets_all_active g.player)
  have hlen : (Game.update hit g).player.bullets.length
      = ((g.player.bullets.map Bullet.move).filter (fun b => b.active)).length := by
    rw [← updateBullets_bullets]
    exact collide_length hit _ g.walls
  have hle : (Game.update hit g).player.bullets.countP (fun c => !c.active)
      ≤ (Game.update hit g).player.bullets.length := List.countP_le_length _
  refine ⟨by omega, by omega, hlen, hadd⟩

/-! ### C17: purge after advancement, before collision resolution -/

/-- C17. `update` advances every projectile, purges the inactive ones, and only then runs
the collision phase.  Every projectile that enters the collision phase is active and is
still in the collection after `update`, at the same index and unchanged but for its flag,
and it is inactive there if and only if an active wall, among the walls as the projectiles
before it left them, intersects its box.  In any game an inactive projectile in the
collection is inactive once advanced, so it is not among the projectiles the next `update`
keeps, which are, in order, the advanced projectiles that are active; and an event before
that `update` leaves it in place. -/
theorem purge_before_collision (hit : Intersect) (g : Game) :
    (Game.update hit g).player.bullets =
        (Game.collide hit ((g.player.bullets.map Bullet.move).filter (fun b => b.active))
          g.walls).1
    ∧ (Game.update hit g).player.bullets.length
        = ((g.player.bullets.map Bullet.move).filter (fun b => b.active)).length
    ∧ (∀ (i : Nat) (b : Bullet),
        ((g.player.bullets.map Bullet.move).filter (fun b => b.active))[i]? = some b →
          b.active = true
          ∧ ∃ b' : Bullet, (Game.update hit g).player.bullets[i]? = some b'
              ∧ Bullet.body b' = Bullet.body b
              ∧ (b'.active = false ↔
                  ∃ w ∈ (Game.collide hit
                      (((g.player.bullets.map Bullet.move).filter
                        (fun b => b.active)).take i) g.walls).2,
                    w.active = true ∧ hit b.rect w.rect = true))
    ∧ (Game.update hit g).player.bullets.map Bullet.body
        = (g.player.bullets.filter (fun b => (Bullet.move b).active)).map
            (fun b => Bullet.body (Bullet.move b))
    ∧ (∀ b ∈ g.player.bullets, b.active = false →
        (Bullet.move b).active = false
        ∧ b ∉ g.player.bullets.filter (fun b => (Bullet.move b).active))
    ∧ (∀ e : SDL_Event,
        List.IsPrefix g.player.bullets (Game.handleEvent hit g e).player.bullets) := by
  have hupd : (Game.update hit g).player.bullets =
      (Game.collide hit ((g.player.bullets.map Bullet.move).filter (fun b => b.active))
        g.walls).1 := by
    rw [← updateBullets_bullets]
    rfl
  have hinact : ∀ b : Bullet, b.active = false → (Bullet.move b).active = false := by
    intro b hb
    rw [Bullet_move_eq]
    simp only [hb, ite_self]
  refine ⟨hupd, ?_, ?_, ?_, ?_, ?_⟩
  · rw [hupd]
    exact collide_length hit _ g.walls
  · intro i b hb
    have hact : b.active = true := (List.mem_filter.1 (List.getElem?_mem hb)).2
    refine ⟨hact, (Game.hitScan hit b (Game.collide hit
      (((g.player.bullets.map Bullet.move).filter (fun b => b.active)).take i)
      g.walls).2).2, ?_, ?_, ?_⟩
    · rw [hupd]
      exact collide_index hit _ g.walls i b hb
    · obtain ⟨hx, hy, hdx, hdy, hr⟩ := hitScan_snd_fields hit b
        (Game.collide hit
          (((g.player.bullets.map Bullet.move).filter (fun b => b.active)).take i)
          g.walls).2
      simp only [Bullet.body, hx, hy, hdx, hdy, hr]
    · exact hitScan_snd_inactive_iff hit b _ hact
  · rw [hupd, collide_bodies, List.filter_map, List.map_map]
    rfl
  · intro b _ hb
    refine ⟨hinact b hb, fun hmem => ?_⟩
    have h := (List.mem_filter.1 hmem).2
    rw [hinact b hb] at h
    exact absurd h (by decide)
  · intro e
    exact ⟨_, (handleEvent_bullets_split hit g e).symm⟩

/-- C17 on the sample game with the SDL primitive.  The projectile advanced to (130, 130)
enters the collision phase first and active; after `update` it is still first in the
collection, inactive exactly because an active sample wall intersects its box.  In the game
after that `update` it is inactive once advanced and not among the projectiles the next
`update` keeps. -/
theorem purge_before_collision_witness :
    ((Bullet.move (Bullet.new 130 140 0 (-1))).active = true
      ∧ ∃ b' : Bullet, (Game.update SDL_HasIntersection sampleGame).player.bullets[0]? = some b'
          ∧ Bullet.body b' = Bullet.body (Bullet.move (Bullet.new 130 140 0 (-1)))
          ∧ (b'.active = false ↔
              ∃ w ∈ (Game.collide SDL_HasIntersection
                  (((sampleGame.player.bullets.map Bullet.move).filter
                    (fun b => b.active)).take 0) sampleGame.walls).2,
                w.active = true
                ∧ SDL_HasIntersection (Bullet.move (Bullet.new 130 140 0 (-1))).rect w.rect
                    = true))
    ∧ ((Bullet.move ⟨130, 130, 0, -10, ⟨130, 130, 10, 10⟩, false⟩).active = false
      ∧ (⟨130, 130, 0, -10, ⟨130, 130, 10, 10⟩, false⟩ : Bullet) ∉
          (Game.update SDL_HasIntersection sampleGame).player.bullets.filter
            (fun b => (Bullet.move b).active))
    ∧ (Game.update SDL_HasIntersection sampleGame).player.bullets[0]?
        = some ⟨130, 130, 0, -10, ⟨130, 130, 10, 10⟩, false⟩ :=
  ⟨(purge_before_collision SDL_HasIntersection sampleGame).2.2.1 0
      (Bullet.move (Bullet.new 130 140 0 (-1))) (by decide),
   (purge_before_collision SDL_HasIntersection
      (Game.update SDL_HasIntersection sampleGame)).2.2.2.2.1
      ⟨130, 130, 0, -10, ⟨130, 130, 10, 10⟩, false⟩ (by decide) rfl,
   by decide⟩

/-! ### C14, C18, C20: what holds in every state of play -/

/-- C14. In every state reached from the constructed game by events and ticks the tank
position has 40 <= x <= 720 and 40 <= y <= 520, its box is the 40x40 square at that
position, and so the box lies within [40, 760] x [40, 560]. -/
theorem tank_stays_in_arena (hit : Intersect) (g : Game) (hg : Reachable hit g) :
    (40 ≤ g.player.x ∧ g.player.x ≤ 720 ∧ 40 ≤ g.player.y ∧ g.player.y ≤ 520)
    ∧ g.player.rect = ⟨g.player.x, g.player.y, 40, 40⟩
    ∧ (40 ≤ g.player.rect.x ∧ g.player.rect.x + g.player.rect.w ≤ 760
      ∧ 40 ≤ g.player.rect.y ∧ g.player.rect.y + g.player.rect.h ≤ 560) := by
  have inv : PlayerTank.inArena g.player := by
    induction hg with
    | init a b c =>
      rw [Game_new_eq]
      exact initial_tank_inArena
    | event g e _ ih => exact handleEvent_inArena hit g e ih
    | tick g _ ih => exact ih
  obtain ⟨h1, h2, h3, h4, hr⟩ := inv
  refine ⟨⟨h1, h2, h3, h4⟩, hr, ?_⟩
  rw [hr]
  simp only
  omega

/-- C14 in the state after the Up key in the constructed game, with the SDL primitive:
the tank stands at (360, 515). -/
theorem tank_stays_in_arena_witness :
    ((40 ≤ (Game.handleEvent SDL_HasIntersection (Game.new true true true)
          (.SDL_KEYDOWN .SDLK_UP)).player.x
      ∧ (Game.handleEvent SDL_HasIntersection (Game.new true true true)
          (.SDL_KEYDOWN .SDLK_UP)).player.x ≤ 720
      ∧ 40 ≤ (Game.handleEvent SDL_HasIntersection (Game.new true true true)
          (.SDL_KEYDOWN .SDLK_UP)).player.y
      ∧ (Game.handleEvent SDL_HasIntersection (Game.new true true true)
          (.SDL_KEYDOWN .SDLK_UP)).player.y ≤ 520))
    ∧ ((Game.handleEvent SDL_HasIntersection (Game.new true true true)
          (.SDL_KEYDOWN .SDLK_UP)).player.x = 360
      ∧ (Game.handleEvent SDL_HasIntersection (Game.new true true true)
          (.SDL_KEYDOWN .SDLK_UP)).player.y = 515) := by
  refine ⟨(tank_stays_in_arena SDL_HasIntersection _
    (Reachable.event _ (.SDL_KEYDOWN .SDLK_UP) (Reachable.init true true true))).1, ?_⟩
  rw [Game_new_eq]
  decide

/-- C18. Take any intersection primitive under which the box of the constructed tank,
(360, 520, 40, 40), intersects none of the 35 generated walls.  Then in every state reached
from the constructed game by events and ticks the box of the tank is the 40x40 square at
its position and intersects no active wall.  The SDL primitive is such a primitive. -/
theorem tank_never_overlaps_wall :
    (∀ hit : Intersect, (∀ w ∈ wallGrid, hit ⟨360, 520, 40, 40⟩ w.rect = false) →
      ∀ g : Game, Reachable hit g →
        g.player.rect = ⟨g.player.x, g.player.y, 40, 40⟩
        ∧ ∀ w ∈ g.walls, w.active = true → hit g.player.rect w.rect = false)
    ∧ (∀ g : Game, Reachable SDL_HasIntersection g →
        g.player.rect = ⟨g.player.x, g.player.y, 40, 40⟩
        ∧ ∀ w ∈ g.walls, w.active = true → SDL_HasIntersection g.player.rect w.rect = false) := by
  have main : ∀ hit : Intersect, (∀ w ∈ wallGrid, hit ⟨360, 520, 40, 40⟩ w.rect = false) →
      ∀ g : Game, Reachable hit g →
        PlayerTank.inArena g.player ∧ clearOfWalls hit g.player.rect g.walls := by
    intro hit hinit g hg
    induction hg with
    | init a b c =>
      rw [Game_new_eq]
      refine ⟨initial_tank_inArena, ?_⟩
      intro w hw _
      exact hinit w hw
    | event g e _ ih =>
      exact ⟨handleEvent_inArena hit g e ih.1,
        handleEvent_clearOfWalls hit g e ih.1.2.2.2.2 ih.2⟩
    | tick g _ ih => exact ⟨ih.1, update_clearOfWalls hit g ih.2⟩
  constructor
  · intro hit hinit g hg
    obtain ⟨hin, hclear⟩ := main hit hinit g hg
    exact ⟨hin.2.2.2.2, hclear⟩
  · intro g hg
    obtain ⟨hin, hclear⟩ := main SDL_HasIntersection (by decide) g hg
    exact ⟨hin.2.2.2.2, hclear⟩

/-- C18 with the SDL primitive in the state after the Up key in the constructed game. -/
theorem tank_never_overlaps_wall_witness :
    (Game.handleEvent SDL_HasIntersection (Game.new true true true)
        (.SDL_KEYDOWN .SDLK_UP)).player.rect
      = ⟨(Game.handleEvent SDL_HasIntersection (Game.new true true true)
            (.SDL_KEYDOWN .SDLK_UP)).player.x,
          (Game.handleEvent SDL_HasIntersection (Game.new true true true)
            (.SDL_KEYDOWN .SDLK_UP)).player.y, 40, 40⟩
    ∧ ∀ w ∈ (Game.handleEvent SDL_HasIntersection (Game.new true true true)
          (.SDL_KEYDOWN .SDLK_UP)).walls,
        w.active = true →
          SDL_HasIntersection
            (Game.handleEvent SDL_HasIntersection (Game.new true true true)
              (.SDL_KEYDOWN .SDLK_UP)).player.rect w.rect = false :=
  tank_never_overlaps_wall.1 SDL_HasIntersection (by decide) _
    (Reachable.event _ (.SDL_KEYDOWN .SDLK_UP) (Reachable.init true true true))

/-- C20. In every state reached from the constructed game by events and ticks the facing
direction is not (0, 0), and a Fire event there appends exactly one projectile, the one
constructed at (x+15, y+15) with the facing direction, to the collection. -/
theorem shoot_guard_never_taken (hit : Intersect) (g : Game) (hg : Reachable hit g) :
    ¬ (g.player.dirX = 0 ∧ g.player.dirY = 0)
    ∧ (Game.handleEvent hit g (.SDL_KEYDOWN .SDLK_SPACE)).player.bullets
        = g.player.bullets ++
            [Bullet.new (g.player.x + 15) (g.player.y + 15) g.player.dirX g.player.dirY]
    ∧ (Game.handleEvent hit g (.SDL_KEYDOWN .SDLK_SPACE)).player.bullets.length
        = g.player.bullets.length + 1 := by
  have inv : PlayerTank.facingSet g.player := by
    induction hg with
    | init a b c =>
      rw [Game_new_eq]
      exact Or.inl ⟨rfl, rfl⟩
    | event g e _ ih => exact handleEvent_facingSet hit g e ih
    | tick g _ ih => exact ih
  have hnz : ¬ (g.player.dirX = 0 ∧ g.player.dirY = 0) := by
    rintro ⟨hx, hy⟩
    rcases inv with h | h | h | h | h <;> omega
  have hfire : (Game.handleEvent hit g (.SDL_KEYDOWN .SDLK_SPACE)).player.bullets
      = g.player.bullets ++
          [Bullet.new (g.player.x + 15) (g.player.y + 15) g.player.dirX g.player.dirY] := by
    have e20 : Int.tdiv TILE_SIZE 2 = 20 := by decide
    have e1 : g.player.x + Int.tdiv TILE_SIZE 2 - 5 = g.player.x + 15 := by omega
    have e2 : g.player.y + Int.tdiv TILE_SIZE 2 - 5 = g.player.y + 15 := by omega
    simp only [Game.handleEvent, PlayerTank.shoot, hnz, if_false, e1, e2]
  refine ⟨hnz, hfire, ?_⟩
  rw [hfire]
  simp

/-- C20 in the state after the Left key in the constructed game, with the SDL primitive:
the facing direction is (-5, 0) and Fire appends one projectile. -/
theorem shoot_guard_never_taken_witness :
    ¬ ((Game.handleEvent SDL_HasIntersection (Game.new true true true)
          (.SDL_KEYDOWN .SDLK_LEFT)).player.dirX = 0
        ∧ (Game.handleEvent SDL_HasIntersection (Game.new true true true)
          (.SDL_KEYDOWN .SDLK_LEFT)).player.dirY = 0)
    ∧ (Game.handleEvents SDL_HasIntersection (Game.new true true true)
          [.SDL_KEYDOWN .SDLK_LEFT, .SDL_KEYDOWN .SDLK_SPACE]).player.bullets.length = 1 := by
  refine ⟨(shoot_guard_never_taken SDL_HasIntersection _
    (Reachable.event _ (.SDL_KEYDOWN .SDLK_LEFT) (Reachable.init true true true))).1, ?_⟩
  rw [Game_new_eq]
  decide

end BattleCity
